import Mathlib

/-!
Verification of the Mail/Drive Synchronization Core
(`app/connectors/google/gmail/core/sync_service.py` and
`app/connectors/google/google_drive/core/sync_service.py`).

The Python services are shallowly embedded: the batch transformers become
pure functions over an explicit store state, the per-user sync loops become
folds that produce an event trace, and the ArangoDB transaction becomes an
atomic apply/abort step driven by a commit oracle (one oracle value per
batch: the code raises and aborts on any failed sub-operation, so a batch
either applies all of its transactional writes or none).

Presentation-only attributes of the Python dictionaries (subject and other
header fields, web URLs, wall-clock timestamps) are not modeled; every
attribute any claim mentions, and every attribute the control flow branches
on, is carried faithfully.  UUID key allocation is modeled by a counter
threaded through the transformer (`uuid.uuid4()` is a supply of fresh keys).
-/

namespace SyncCore

/-- A vertex reference `collection/key` as built by the Python f-strings
such as `f'records/&#123;key&#125;'`; the collection name and the key are kept
as separate fields. -/
structure VRef where
  coll : String
  key : String
  deriving Repr, DecidableEq

/-- An edge document as handed to `batch_create_edges` (`_from`, `_to`,
`relationType`, optional `role`). -/
structure Edge where
  efrom : VRef
  eto : VRef
  relationType : String
  role : Option String := none
  deriving Repr, DecidableEq

/-- A row of the `mails` vertex collection as built in
`BaseGmailSyncService.process_batch` (lines 361-379). -/
structure MailRow where
  key : Nat
  externalMessageId : String
  threadId : String
  isParent : Bool
  internalDate : Option Int
  deriving Repr, DecidableEq

/-- A row of the `attachments` vertex collection as built in
`process_batch` (lines 443-452). -/
structure AttachmentRow where
  key : Nat
  externalAttachmentId : String
  messageId : String
  deriving Repr, DecidableEq

/-- A row of the `records` vertex collection as built in `process_batch`
(lines 381-397 for messages, 453-469 for attachments). -/
structure RecordRow where
  key : Nat
  recordName : String
  recordType : String
  version : Nat
  connectorName : String
  deriving Repr, DecidableEq

/-- A Gmail message payload: `message['id']`, `message.get('internalDate')`.
`internalDate` is optional because the code reads it with
`x['message'].get('internalDate', 0)` when sorting. -/
structure Message where
  id : String
  internalDate : Option Int
  deriving Repr, DecidableEq

/-- One element of `attachments_metadata`: `attachment['attachment_id']`
and `attachment.get('message_id')`. -/
structure AttachmentMeta where
  attachment_id : String
  message_id : String
  deriving Repr, DecidableEq

/-- One element of `permissions_metadata`: a permission descriptor
`messageId`, `attachmentIds`, `role`, `users`. -/
structure PermissionMeta where
  messageId : String
  attachmentIds : List String
  users : List String
  role : String
  deriving Repr, DecidableEq

/-- One element of `metadata_list` in the Gmail `process_batch`: the thread
payload (its id), its messages, attachments and permission descriptors. -/
structure ThreadMeta where
  thread_id : String
  messages : List Message
  attachments : List AttachmentMeta
  permissions : List PermissionMeta
  deriving Repr, DecidableEq

/-- The slice of the ArangoDB state the Gmail transformer reads and writes:
the `mails`, `attachments`, `records` vertex collections, the
`recordRelations` and `permissions` edge collections, and the principal
collections `users`, `groups`, `people` (key paired with email). -/
structure GmailStore where
  mails : List MailRow
  attachments : List AttachmentRow
  records : List RecordRow
  recordRelations : List Edge
  permissions : List Edge
  users : List (String × String)
  groups : List (String × String)
  people : List (String × String)
  deriving Repr, DecidableEq

/-- The AQL existence probe
`FOR doc IN mails FILTER doc.externalMessageId == @message_id RETURN doc`
followed by `next(cursor, None)`. -/
def lookup_mail (s : GmailStore) (mid : String) : Option MailRow :=
  s.mails.find? (fun m => m.externalMessageId == mid)

/-- The AQL existence probe over `attachments` by `externalAttachmentId`. -/
def lookup_attachment (s : GmailStore) (aid : String) : Option AttachmentRow :=
  s.attachments.find? (fun a => a.externalAttachmentId == aid)

/-- `db.collection('users').has(entity_id)`. -/
def users_has (s : GmailStore) (eid : String) : Bool :=
  s.users.any (fun u => u.1 == eid)

/-- `db.collection('groups').has(entity_id)`. -/
def groups_has (s : GmailStore) (eid : String) : Bool :=
  s.groups.any (fun g => g.1 == eid)

/-- Modelled from the spec: the deterministic hash of an email with which
the `people` fallback collection is keyed (section 4.4: "insert/upsert into
`people` keyed by a hash of email").  The hash function itself lives in
`arango_service`, which is not part of the sources; any injective
deterministic stand-in is faithful. -/
def emailHash (email : String) : String :=
  "h-" ++ email

/-- Modelled from the spec: `get_entity_id_by_email` /
`entityIdByEmail(email)` of the store adapter (section 4.1), which is not
part of the sources.  As used by the permission resolver (section 4.4) it
yields the key of the `users` or `groups` vertex bound to the email when
one exists, and otherwise the deterministic email hash with which the
`people` fallback vertex is keyed, so that the resolver can branch on
collection membership of the returned id. -/
def get_entity_id_by_email (s : GmailStore) (email : String) : Option String :=
  match s.users.find? (fun u => u.2 == email) with
  | some u => some u.1
  | none =>
    match s.groups.find? (fun g => g.2 == email) with
    | some g => some g.1
    | none => some (emailHash email)

/-- `save_to_people_collection(entity_id, email)`: upsert into `people`. -/
def save_to_people (s : GmailStore) (eid email : String) : GmailStore :=
  if s.people.any (fun p => p.1 == eid) then s
  else { s with people := s.people ++ [(eid, email)] }

/-- The sort key `int(x['message'].get('internalDate', 0))`. -/
def sortKey (m : Message) : Int :=
  m.internalDate.getD 0

/-- `sorted(messages_metadata, key=...)` (line 324): Python sorted is a
stable sort by the key; embedded as a stable insertion sort, which agrees
with every stable sort by the same key on every input. -/
def sortMessages (ms : List Message) : List Message :=
  ms.insertionSort (fun a b => sortKey a ≤ sortKey b)

/-- The sort key of a stored mail row (its `internalDate`, defaulting 0). -/
def rowKey (r : MailRow) : Int :=
  r.internalDate.getD 0

/-- Output accumulator of the message loop of one thread. -/
structure MsgPhaseOut where
  mails : List MailRow
  records : List RecordRow
  rels : List Edge
  existing : List String
  ctr : Nat
  deriving Repr, DecidableEq

/-- A `SIBLING` edge `records/prev -> records/cur` (lines 408-412). -/
def sibEdge (prev cur : Nat) : Edge :=
  { efrom := ⟨"records", toString prev⟩
    eto := ⟨"records", toString cur⟩
    relationType := "SIBLING" }

/-- The message loop of `process_batch` (lines 329-415) over the already
sorted message list of one thread: `i` is the enumeration index, `prev`
the tracked previous message key, `ctr` the fresh-key supply.  An existing
message is recorded in `existing_messages` and its key becomes `prev`; a
new message allocates a key, emits a `mails` row (with `isParent` iff its
sorted index is 0) plus a mirrored `records` row of type `MESSAGE`, and a
`SIBLING` edge from `prev` when one is tracked. -/
def msgPhase (s : GmailStore) (tid : String) :
    List Message → Nat → Option Nat → Nat → MsgPhaseOut
  | [], _, _, ctr => ⟨[], [], [], [], ctr⟩
  | m :: rest, i, prev, ctr =>
    match lookup_mail s m.id with
    | some row =>
      let out := msgPhase s tid rest (i + 1) (some row.key) ctr
      { out with existing := m.id :: out.existing }
    | none =>
      let mailRow : MailRow :=
        { key := ctr, externalMessageId := m.id, threadId := tid,
          isParent := i == 0, internalDate := m.internalDate }
      let recRow : RecordRow :=
        { key := ctr, recordName := "placeholder", recordType := "MESSAGE",
          version := 0, connectorName := "GOOGLE_GMAIL" }
      let out := msgPhase s tid rest (i + 1) (some ctr) (ctr + 1)
      { mails := mailRow :: out.mails
        records := recRow :: out.records
        rels := (match prev with
          | some pk => [sibEdge pk ctr]
          | none => []) ++ out.rels
        existing := out.existing
        ctr := out.ctr }

/-- `next((m['_key'] for m in messages if m['externalMessageId'] == message_id), None)`:
first matching key in the batch-wide list of newly created message rows. -/
def find_msg_key (msgs : List MailRow) (mid : String) : Option Nat :=
  (msgs.find? (fun m => m.externalMessageId == mid)).map (fun m => m.key)

/-- `next((a['_key'] for a in attachments if a['externalAttachmentId'] == attachment_id), None)`. -/
def find_att_key (atts : List AttachmentRow) (aid : String) : Option Nat :=
  (atts.find? (fun a => a.externalAttachmentId == aid)).map (fun a => a.key)

/-- Output of the attachment loop of one thread. -/
structure AttPhaseOut where
  atts : List AttachmentRow
  records : List RecordRow
  rels : List Edge
  existing : List String
  ctr : Nat
  deriving Repr, DecidableEq

/-- The attachment loop of `process_batch` (lines 420-488).  `batchMsgs` is
the batch-wide list of newly created message rows accumulated so far (the
Python `messages` list).  A new attachment allocates a key, emits an
`attachments` row plus a mirrored `records` row whose `recordType` is the
literal string `attachment` (line 456), and an edge of `relationType`
`attachment` from the owning message record when the owning message is
among the newly created ones. -/
def attPhase (s : GmailStore) (batchMsgs : List MailRow) :
    List AttachmentMeta → Nat → AttPhaseOut
  | [], ctr => ⟨[], [], [], [], ctr⟩
  | a :: rest, ctr =>
    match lookup_attachment s a.attachment_id with
    | some _ =>
      let out := attPhase s batchMsgs rest ctr
      { out with existing := a.attachment_id :: out.existing }
    | none =>
      let attRow : AttachmentRow :=
        { key := ctr, externalAttachmentId := a.attachment_id,
          messageId := a.message_id }
      let recRow : RecordRow :=
        { key := ctr, recordName := "placeholder", recordType := "attachment",
          version := 0, connectorName := "GOOGLE_GMAIL" }
      let out := attPhase s batchMsgs rest (ctr + 1)
      { atts := attRow :: out.atts
        records := recRow :: out.records
        rels := (match find_msg_key batchMsgs a.message_id with
          | some mk =>
            [{ efrom := ⟨"records", toString mk⟩
               eto := ⟨"records", toString ctr⟩
               relationType := "attachment" }]
          | none => []) ++ out.rels
        existing := out.existing
        ctr := out.ctr }

/-- The inner email loop of the message-permission branch (lines 505-523):
resolve the email, bind to `users`, else `groups`, else save to `people`
and bind there, and append a `HAS_ACCESS` edge to `messages/&#123;message_key&#125;`.
Returns the appended edges and the people upserts performed. -/
def permEmailsForMessage (s : GmailStore) (msgKey : Nat) (role : String) :
    List String → List Edge × List (String × String)
  | [] => ([], [])
  | email :: rest =>
    let prev := permEmailsForMessage s msgKey role rest
    match get_entity_id_by_email s email with
    | none => prev
    | some eid =>
      if users_has s eid then
        ({ efrom := ⟨"users", eid⟩, eto := ⟨"messages", toString msgKey⟩,
           relationType := "HAS_ACCESS", role := some role } :: prev.1, prev.2)
      else if groups_has s eid then
        ({ efrom := ⟨"groups", eid⟩, eto := ⟨"messages", toString msgKey⟩,
           relationType := "HAS_ACCESS", role := some role } :: prev.1, prev.2)
      else
        ({ efrom := ⟨"people", eid⟩, eto := ⟨"messages", toString msgKey⟩,
           relationType := "HAS_ACCESS", role := some role } :: prev.1,
         (eid, email) :: prev.2)

/-- The inner email loop of the attachment-permission branch (lines
537-555): resolve the email, bind to `users`, else `groups`, else skip the
principal with a warning (no `people` fallback here), and append a
`HAS_ACCESS` edge to `attachments/&#123;attachment_key&#125;`. -/
def permEmailsForAttachment (s : GmailStore) (attKey : Nat) (role : String) :
    List String → List Edge
  | [] => []
  | email :: rest =>
    let edges := permEmailsForAttachment s attKey role rest
    match get_entity_id_by_email s email with
    | none => edges
    | some eid =>
      if users_has s eid then
        { efrom := ⟨"users", eid⟩, eto := ⟨"attachments", toString attKey⟩,
          relationType := "HAS_ACCESS", role := some role } :: edges
      else if groups_has s eid then
        { efrom := ⟨"groups", eid⟩, eto := ⟨"attachments", toString attKey⟩,
          relationType := "HAS_ACCESS", role := some role } :: edges
      else
        edges

/-- The attachment-id loop of one permission descriptor (lines 529-558). -/
def permAttachments (s : GmailStore) (batchAtts : List AttachmentRow)
    (role : String) (emails : List String) : List String → List Edge
  | [] => []
  | aid :: rest =>
    (match find_att_key batchAtts aid with
      | some ak => permEmailsForAttachment s ak role emails
      | none => []) ++ permAttachments s batchAtts role emails rest

/-- The permission loop of `process_batch` (lines 491-558) over the
permission descriptors of one thread; `batchMsgs` and `batchAtts` are the
batch-wide lists of newly created rows. -/
def permPhase (s : GmailStore) (batchMsgs : List MailRow)
    (batchAtts : List AttachmentRow) :
    List PermissionMeta → List Edge × List (String × String)
  | [] => ([], [])
  | p :: rest =>
    let msgPart :=
      match find_msg_key batchMsgs p.messageId with
      | some mk => permEmailsForMessage s mk p.role p.users
      | none => ([], [])
    let attEdges := permAttachments s batchAtts p.role p.users p.attachmentIds
    let restPart := permPhase s batchMsgs batchAtts rest
    (msgPart.1 ++ attEdges ++ restPart.1, msgPart.2 ++ restPart.2)

/-- The batch-wide accumulator of `process_batch`: the lists initialised at
lines 284-290 plus the fresh-key counter and the people upserts performed
while transforming. -/
structure BatchAcc where
  messages : List MailRow
  attachments : List AttachmentRow
  records : List RecordRow
  recordRelations : List Edge
  permissions : List Edge
  existing_messages : List String
  existing_attachments : List String
  peopleSaves : List (String × String)
  ctr : Nat
  deriving Repr, DecidableEq

/-- The empty accumulator with fresh-key counter `c`. -/
def initAcc (c : Nat) : BatchAcc :=
  ⟨[], [], [], [], [], [], [], [], c⟩

/-- Processing of one element of `metadata_list` (lines 294-558): skip the
thread when its id is falsy, else run the message loop over the messages
sorted by `internalDate`, the attachment loop, and the permission loop,
appending into the batch-wide accumulator. -/
def processThreadInto (s : GmailStore) (acc : BatchAcc) (meta : ThreadMeta) :
    BatchAcc :=
  if meta.thread_id == "" then acc
  else
    let sortedMessages := sortMessages meta.messages
    let m := msgPhase s meta.thread_id sortedMessages 0 none acc.ctr
    let msgs := acc.messages ++ m.mails
    let a := attPhase s msgs meta.attachments m.ctr
    let atts := acc.attachments ++ a.atts
    let (permEdges, saves) := permPhase s msgs atts meta.permissions
    { messages := msgs
      attachments := atts
      records := acc.records ++ m.records ++ a.records
      recordRelations := acc.recordRelations ++ m.rels ++ a.rels
      permissions := acc.permissions ++ permEdges
      existing_messages := acc.existing_messages ++ m.existing
      existing_attachments := acc.existing_attachments ++ a.existing
      peopleSaves := acc.peopleSaves ++ saves
      ctr := a.ctr }

/-- The metadata loop of `process_batch`: fold `processThreadInto` over the
batch. -/
def process_batch_core (s : GmailStore) (ctr : Nat)
    (metas : List ThreadMeta) : BatchAcc :=
  metas.foldl (processThreadInto s) (initAcc ctr)

/-- The people upserts performed during transformation: they run through
`save_to_people_collection` outside the batch transaction (line 516), so
they survive an aborted transaction. -/
def applyPeopleSaves (s : GmailStore) : List (String × String) → GmailStore
  | [] => s
  | (eid, email) :: rest => applyPeopleSaves (save_to_people s eid email) rest

/-- Commit of the batch transaction (lines 576-625): upsert the new
`mails`, `attachments` and `records` rows and create the new
`recordRelations` and `permissions` edges, all-or-nothing. -/
def commitBatch (s : GmailStore) (acc : BatchAcc) : GmailStore :=
  { s with
    mails := s.mails ++ acc.messages
    attachments := s.attachments ++ acc.attachments
    records := s.records ++ acc.records
    recordRelations := s.recordRelations ++ acc.recordRelations
    permissions := s.permissions ++ acc.permissions }

/-- Result of one `process_batch` call: the store afterwards, the next
fresh key, the boolean the method returns, and whether a transaction was
opened. -/
structure BatchResult where
  store : GmailStore
  ctr : Nat
  success : Bool
  txnOpened : Bool
  deriving Repr, DecidableEq

/-- `BaseGmailSyncService.process_batch` (lines 270-656) for a run whose
stop flag is clear: transform the batch, then, when there are new messages
or attachments, open a transaction and commit (`commitOk` true) or hit a
failing sub-operation, abort, and return `False` (`commitOk` false); with
no new data return `True` without opening a transaction.  The people
upserts happen while transforming, outside the transaction. -/
def process_batch (s : GmailStore) (ctr : Nat) (metas : List ThreadMeta)
    (commitOk : Bool) : BatchResult :=
  let acc := process_batch_core s ctr metas
  let s1 := applyPeopleSaves s acc.peopleSaves
  if acc.messages.isEmpty && acc.attachments.isEmpty then
    { store := s1, ctr := acc.ctr, success := true, txnOpened := false }
  else if commitOk then
    { store := commitBatch s1 acc, ctr := acc.ctr, success := true,
      txnOpened := true }
  else
    { store := s1, ctr := acc.ctr, success := false, txnOpened := true }

/-- A Kafka envelope as built at lines 970-986 (the fields the claims
mention). -/
structure Envelope where
  recordId : Option Nat
  eventType : String
  recordVersion : Nat
  recordType : String
  threadId : String
  deriving Repr, DecidableEq

/-- `get_key_by_external_message_id`: key of the mail row with the given
external id in the committed store. -/
def get_key_by_external_message_id (s : GmailStore) (mid : String) :
    Option Nat :=
  (lookup_mail s mid).map (fun m => m.key)

/-- The Kafka emission loop of `perform_initial_sync` (lines 963-988): one
envelope per message of every thread of the batch, with `eventType`
`create` and `recordVersion` 0, the `recordId` looked up by external
message id in the store as committed. -/
def emitEvents (s : GmailStore) (metas : List ThreadMeta) : List Envelope :=
  metas.flatMap (fun meta =>
    meta.messages.map (fun m =>
      { recordId := get_key_by_external_message_id s m.id
        eventType := "create"
        recordVersion := 0
        recordType := "MESSAGE"
        threadId := meta.thread_id }))

/-- One observable step of the per-user sync loop. -/
inductive TraceEv where
  | commit : TraceEv
  | emit : Envelope → TraceEv
  deriving Repr, DecidableEq

/-- The batch loop of `GmailSyncEnterpriseService.perform_initial_sync`
(lines 897-988) with the stop flag clear: process each batch; on failure
skip it (`continue`); on success append a commit step when a transaction
was opened, then the emissions.  Every event is paired with the store at
the moment it happens.  `ok i` is the commit oracle for the i-th batch. -/
def runBatches (s : GmailStore) (ctr : Nat) :
    List (List ThreadMeta) → (Nat → Bool) → Nat →
    GmailStore × List (GmailStore × TraceEv) × List Bool
  | [], _, _ => (s, [], [])
  | b :: rest, ok, i =>
    let r := process_batch s ctr b (ok i)
    let evs :=
      if r.success then
        (if r.txnOpened then [(r.store, TraceEv.commit)] else []) ++
        (emitEvents r.store b).map (fun e => (r.store, TraceEv.emit e))
      else []
    let next := runBatches r.store r.ctr rest ok (i + 1)
    (next.1, evs ++ next.2.1, r.success :: next.2.2)

/-- Result of one enterprise `perform_initial_sync` run for one user: the
returned boolean, the `syncStates` writes in order, the event trace, the
per-batch outcome of `process_batch`, and the final store. -/
structure EntRunOut where
  result : Bool
  stateWrites : List (String × String)
  trace : List (GmailStore × TraceEv)
  batchResults : List Bool
  store : GmailStore
  deriving Repr, DecidableEq

/-- `GmailSyncEnterpriseService.perform_initial_sync` (lines 817-1009) for
one user, with a constant stop flag.  The base-class `_should_stop` (lines
213-227) reads `self.gmail_user_service`, an attribute that only
`GmailSyncIndividualService` assigns (line 1198); on the enterprise service
a set stop flag therefore raises `AttributeError` inside the very first
stop check (line 821) before `user` is bound, and the handler at lines
1001-1009 finds no user in `locals()`, persists nothing and returns
`False`.  With the flag clear, the user is marked `RUNNING`, every batch is
attempted (a failed batch is skipped with `continue`, line 961), and the
user is marked `COMPLETED` at the end. -/
def gmail_enterprise_initial_sync (stopFlag : Bool) (email : String)
    (s : GmailStore) (ctr : Nat) (batches : List (List ThreadMeta))
    (ok : Nat → Bool) : EntRunOut :=
  if stopFlag then
    { result := false, stateWrites := [], trace := [], batchResults := [],
      store := s }
  else
    let r := runBatches s ctr batches ok 0
    { result := true
      stateWrites := [(email, "RUNNING"), (email, "COMPLETED")]
      trace := r.2.1
      batchResults := r.2.2
      store := r.1 }

/-- A row of the `files` vertex collection as built in
`BaseDriveSyncService.process_batch` (lines 422-440). -/
structure FileRow where
  key : Nat
  fileName : String
  externalFileId : String
  deriving Repr, DecidableEq

/-- One element of the drive `metadata_list`: file id, name and the
optional `parents` list (the code tests `if 'parents' in metadata`). -/
structure DriveMeta where
  id : String
  name : String
  parents : Option (List String)
  deriving Repr, DecidableEq

/-- The slice of the store the drive batch transformer and the drive
emission loop read: the `files` and `records` collections (relations and
permissions are written through the store adapter and read by no claim). -/
structure DriveStore where
  files : List FileRow
  records : List RecordRow
  deriving Repr, DecidableEq

/-- The AQL probe over `files` by `externalFileId`, returning `_key`. -/
def lookup_file_key (files : List FileRow) (fid : String) : Option Nat :=
  (files.find? (fun f => f.externalFileId == fid)).map (fun f => f.key)

/-- Output of the drive file loop. -/
structure FilesPhaseOut where
  files : List FileRow
  records : List RecordRow
  existing : List String
  ctr : Nat
  deriving Repr, DecidableEq

/-- The file loop of the drive `process_batch` (lines 398-461): skip a
falsy id, record an existing file, else allocate a key and emit a `files`
row plus a mirrored `records` row of type `FILE`. -/
def filesPhase (s : DriveStore) : List DriveMeta → Nat → FilesPhaseOut
  | [], ctr => ⟨[], [], [], ctr⟩
  | m :: rest, ctr =>
    if m.id == "" then filesPhase s rest ctr
    else
      match lookup_file_key s.files m.id with
      | some _ =>
        let out := filesPhase s rest ctr
        { out with existing := m.id :: out.existing }
      | none =>
        let fileRow : FileRow :=
          { key := ctr, fileName := m.name, externalFileId := m.id }
        let recRow : RecordRow :=
          { key := ctr, recordName := m.name, recordType := "FILE",
            version := 0, connectorName := "GOOGLE_DRIVE" }
        let out := filesPhase s rest (ctr + 1)
        { out with files := fileRow :: out.files,
                   records := recRow :: out.records }

/-- The loop variable `file_id` as it stands after the file loop: the last
iteration of `for metadata in metadata_list` left it bound to that
metadata's id (line 403); the parent-edge loop (lines 495-519) never
rebinds it. -/
def staleFileId (metas : List DriveMeta) : Option String :=
  (metas.getLast?).map (fun m => m.id)

/-- A `PARENT_CHILD` edge between records (lines 515-519). -/
def pcEdge (parentKey childKey : Nat) : Edge :=
  { efrom := ⟨"records", toString parentKey⟩
    eto := ⟨"records", toString childKey⟩
    relationType := "PARENT_CHILD" }

/-- The parent-edge loop of the drive `process_batch` (lines 495-519),
running inside the transaction after the new file rows were upserted
(`all` is the `files` collection contents at that point).  For every
`parents` entry of every metadata it resolves `parent_id` and the stale
`file_id` by `externalId` and emits a `PARENT_CHILD` edge when both
resolve. -/
def parentEdges (all : List FileRow) (stale : Option String) :
    List DriveMeta → List Edge
  | [] => []
  | m :: rest =>
    (match m.parents with
      | none => []
      | some ps =>
        ps.filterMap (fun pid =>
          match lookup_file_key all pid,
              stale.bind (lookup_file_key all) with
          | some pk, some fk => some (pcEdge pk fk)
          | _, _ => none)) ++ parentEdges all stale rest

/-- Transform part of the drive `process_batch` (lines 381-529): the new
file and record rows, the `PARENT_CHILD` edges created inside the
transaction, the skipped existing ids, whether a transaction was opened
(`if files or records or recordRelations:`, line 464, where
`recordRelations` is still empty), and the next fresh key.  The per-file
permission pass delegates to `process_file_permissions` of the store
adapter, which is outside the sources and outside every claim. -/
structure DriveBatchOut where
  files : List FileRow
  records : List RecordRow
  rels : List Edge
  existing_files : List String
  txnOpened : Bool
  ctr : Nat
  deriving Repr, DecidableEq

/-- `BaseDriveSyncService.process_batch`, transform and relation phases. -/
def drive_process_batch_core (s : DriveStore) (ctr : Nat)
    (metas : List DriveMeta) : DriveBatchOut :=
  let out := filesPhase s metas ctr
  if out.files.isEmpty && out.records.isEmpty then
    { files := [], records := [], rels := [], existing_files := out.existing,
      txnOpened := false, ctr := out.ctr }
  else
    { files := out.files, records := out.records
      rels := parentEdges (s.files ++ out.files) (staleFileId metas) metas
      existing_files := out.existing, txnOpened := true, ctr := out.ctr }

/-- The key the claim expects a parent edge to point at: the record key
resolved from the externalId of the file named in the same metadata entry
(spec section 4.5, drive batch step 2). -/
def childKeyPerSpec (all : List FileRow) (m : DriveMeta) : Option Nat :=
  lookup_file_key all m.id

/-- Result of one drive `process_batch` call. -/
structure DriveBatchResult where
  store : DriveStore
  ctr : Nat
  success : Bool
  txnOpened : Bool
  deriving Repr, DecidableEq

/-- `BaseDriveSyncService.process_batch` (lines 381-585) with the stop flag
clear: transform, then either return `True` without a transaction (no new
rows), or commit (`commitOk` true) or abort on a failing sub-operation and
return `False` (`commitOk` false). -/
def drive_process_batch (s : DriveStore) (ctr : Nat) (metas : List DriveMeta)
    (commitOk : Bool) : DriveBatchResult :=
  let out := drive_process_batch_core s ctr metas
  if out.txnOpened then
    if commitOk then
      { store := { files := s.files ++ out.files,
                   records := s.records ++ out.records },
        ctr := out.ctr, success := true, txnOpened := true }
    else
      { store := s, ctr := out.ctr, success := false, txnOpened := true }
  else
    { store := s, ctr := out.ctr, success := true, txnOpened := false }

/-- The drive Kafka emission loop of `perform_initial_sync` (lines
851-888): one envelope per file of the batch, `recordId` the key resolved
by `get_key_by_external_file_id` in the committed store, `recordType` read
back from the stored record, `eventType` `create` and `recordVersion` 0. -/
def driveEmitEvents (s : DriveStore) (metas : List DriveMeta) :
    List Envelope :=
  metas.map (fun m =>
    let fk := lookup_file_key s.files m.id
    { recordId := fk
      eventType := "create"
      recordVersion := 0
      recordType :=
        match fk with
        | some k =>
          ((s.records.find? (fun r => r.key == k)).map
            (fun r => r.recordType)).getD ""
        | none => ""
      threadId := "" })

/-- The drive batch loop of
`DriveSyncEnterpriseService.perform_initial_sync` (lines 835-888) with the
stop flag clear: process each batch; on failure skip it (`continue`, line
849); on success append a commit step when a transaction was opened, then
the emissions, each event paired with the store at that moment. -/
def driveRunBatches (s : DriveStore) (ctr : Nat) :
    List (List DriveMeta) → (Nat → Bool) → Nat →
    DriveStore × List (DriveStore × TraceEv) × List Bool
  | [], _, _ => (s, [], [])
  | b :: rest, ok, i =>
    let r := drive_process_batch s ctr b (ok i)
    let evs :=
      if r.success then
        (if r.txnOpened then [(r.store, TraceEv.commit)] else []) ++
        (driveEmitEvents r.store b).map (fun e => (r.store, TraceEv.emit e))
      else []
    let next := driveRunBatches r.store r.ctr rest ok (i + 1)
    (next.1, evs ++ next.2.1, r.success :: next.2.2)

/-- The permission edge `process_drive_data` writes to the `permissions`
collection for the drive itself (lines 362-372): note `_from` is the
records vertex and `_to` is the users vertex, with attribute `permission`. -/
structure DrivePermEdge where
  efrom : VRef
  eto : VRef
  permission : String
  deriving Repr, DecidableEq

/-- The `user_record_relation` edge of `process_drive_data`. -/
def drive_user_record_permission (recordKey : Nat) (userId : String)
    (accessLevel : String) : DrivePermEdge :=
  { efrom := ⟨"records", toString recordKey⟩
    eto := ⟨"users", userId⟩
    permission := if accessLevel == "writer" then "WRITER" else "VIEWER" }

/-- `BaseDriveSyncService.start` (lines 145-181): for each user read the
sync state (`NOT_STARTED` when no row exists); a `RUNNING` or `PAUSED` user
rejects the start; otherwise a fresh sync task is launched and `True`
returned.  The result pairs the returned boolean with whether a task was
launched. -/
def drive_start (rows : List (Option String)) : Bool × Bool :=
  match rows with
  | [] => (true, true)
  | row :: rest =>
    let current := row.getD "NOT_STARTED"
    if current == "RUNNING" then (false, false)
    else if current == "PAUSED" then (false, false)
    else drive_start rest

/-- `BaseDriveSyncService.resume` (lines 221-255): for each user read the
sync state; with no row it warns "No sync state found, starting fresh" and
returns `start`; a `RUNNING` user or any state other than `PAUSED` rejects
the resume; when every user is `PAUSED` a sync task is launched with
action resume and `True` returned. -/
def drive_resume (rows : List (Option String)) : Bool × Bool :=
  match rows with
  | [] => (true, true)
  | row :: rest =>
    match row with
    | none => drive_start rows
    | some st =>
      if st == "RUNNING" then (false, false)
      else if st != "PAUSED" then (false, false)
      else drive_resume rest

/-- `BaseGmailSyncService.start` (lines 81-126) on the individual service,
as a function of the stored sync state. -/
def gmail_start (row : Option String) : Bool × Bool :=
  let current := row.getD "NOT_STARTED"
  if current == "RUNNING" then (false, false)
  else if current == "PAUSED" then (false, false)
  else (true, true)

/-- `BaseGmailSyncService.resume` (lines 168-211) on the individual
service: with no sync state row it warns "No user found, starting fresh"
and returns `start`; a state other than `PAUSED` is rejected; `PAUSED`
relaunches the sync task. -/
def gmail_resume (row : Option String) : Bool × Bool :=
  match row with
  | none => gmail_start none
  | some st =>
    if st == "RUNNING" then (false, false)
    else if st != "PAUSED" then (false, false)
    else (true, true)

/-! Specification-side helper definitions used to state and prove the
claims. -/

/-- The mail rows the message loop produces for an all-new thread:
one row per sorted message, keys allocated consecutively, `isParent` iff
the absolute sorted index is 0. -/
def rowsSpec (tid : String) : List Message → Nat → Nat → List MailRow
  | [], _, _ => []
  | m :: rest, i, ctr =>
    { key := ctr, externalMessageId := m.id, threadId := tid,
      isParent := i == 0, internalDate := m.internalDate } ::
    rowsSpec tid rest (i + 1) (ctr + 1)

/-- The sibling edges the message loop produces for an all-new thread,
given the tracked previous key and the next fresh key. -/
def chainSpec (prev : Option Nat) (ctr : Nat) : Nat → List Edge
  | 0 => []
  | n + 1 =>
    (match prev with
      | some pk => [sibEdge pk ctr]
      | none => []) ++ chainSpec (some ctr) (ctr + 1) n

/-- The sibling chain over consecutive keys starting at `c`: edges
`c -> c+1`, `c+1 -> c+2`, and so on. -/
def chainList (c : Nat) : Nat → List Edge
  | 0 => []
  | n + 1 => sibEdge c (c + 1) :: chainList (c + 1) n

/-- Invariant P2 of the spec for the mail store: every `mails` vertex is
mirrored by a `records` vertex with the same key. -/
def mirrorInv (s : GmailStore) : Prop :=
  ∀ m ∈ s.mails, ∃ r ∈ s.records, r.key = m.key

/-- A well-formed gmail batch: every thread payload carries a non-falsy
thread id. -/
def wfBatch (b : List ThreadMeta) : Prop :=
  ∀ meta ∈ b, meta.thread_id ≠ ""

/-- Invariant P2 of the spec for the drive store: every `files` vertex is
mirrored by a `records` vertex with the same key. -/
def driveMirrorInv (s : DriveStore) : Prop :=
  ∀ f ∈ s.files, ∃ r ∈ s.records, r.key = f.key

/-- A well-formed drive batch: every metadata entry carries a non-falsy
file id. -/
def wfDriveBatch (b : List DriveMeta) : Prop :=
  ∀ m ∈ b, m.id ≠ ""

/-! Helper lemmas. -/

theorem msgPhase_mails_all_new (s : GmailStore) (tid : String) :
    ∀ (ms : List Message) (i : Nat) (prev : Option Nat) (ctr : Nat),
    (∀ m ∈ ms, lookup_mail s m.id = none) →
    (msgPhase s tid ms i prev ctr).mails = rowsSpec tid ms i ctr
  | [], _, _, _, _ => rfl
  | m :: rest, i, prev, ctr, h => by
    have hm : lookup_mail s m.id = none := h m (List.mem_cons_self m _)
    have hr : ∀ x ∈ rest, lookup_mail s x.id = none :=
      fun x hx => h x (List.mem_cons_of_mem _ hx)
    simp only [msgPhase, hm, rowsSpec]
    rw [msgPhase_mails_all_new s tid rest (i + 1) (some ctr) (ctr + 1) hr]

theorem msgPhase_rels_all_new (s : GmailStore) (tid : String) :
    ∀ (ms : List Message) (i : Nat) (prev : Option Nat) (ctr : Nat),
    (∀ m ∈ ms, lookup_mail s m.id = none) →
    (msgPhase s tid ms i prev ctr).rels = chainSpec prev ctr ms.length
  | [], _, _, _, _ => rfl
  | m :: rest, i, prev, ctr, h => by
    have hm : lookup_mail s m.id = none := h m (List.mem_cons_self m _)
    have hr : ∀ x ∈ rest, lookup_mail s x.id = none :=
      fun x hx => h x (List.mem_cons_of_mem _ hx)
    simp only [msgPhase, hm, List.length_cons, chainSpec]
    rw [msgPhase_rels_all_new s tid rest (i + 1) (some ctr) (ctr + 1) hr]

theorem rowsSpec_length (tid : String) :
    ∀ (ms : List Message) (i ctr : Nat),
    (rowsSpec tid ms i ctr).length = ms.length
  | [], _, _ => rfl
  | _ :: rest, i, ctr => by
    simp [rowsSpec, rowsSpec_length tid rest (i + 1) (ctr + 1)]

theorem rowsSpec_get (tid : String) :
    ∀ (ms : List Message) (i ctr j : Nat) (h : j < (rowsSpec tid ms i ctr).length)
    (h2 : j < ms.length),
    (rowsSpec tid ms i ctr).get ⟨j, h⟩ =
      { key := ctr + j, externalMessageId := (ms.get ⟨j, h2⟩).id,
        threadId := tid, isParent := i + j == 0,
        internalDate := (ms.get ⟨j, h2⟩).internalDate }
  | m :: rest, i, ctr, 0, h, h2 => by simp [rowsSpec]
  | m :: rest, i, ctr, j + 1, h, h2 => by
    have hlt : j < (rowsSpec tid rest (i + 1) (ctr + 1)).length := by
      simpa [rowsSpec] using h
    have hlt2 : j < rest.length := by simpa using h2
    simp only [rowsSpec, List.get_cons_succ]
    rw [rowsSpec_get tid rest (i + 1) (ctr + 1) j hlt hlt2]
    simp [Nat.add_assoc, Nat.add_comm 1 j, Nat.add_left_comm]

theorem rowsSpec_map_id (tid : String) :
    ∀ (ms : List Message) (i ctr : Nat),
    (rowsSpec tid ms i ctr).map MailRow.externalMessageId = ms.map Message.id
  | [], _, _ => rfl
  | m :: rest, i, ctr => by
    simp [rowsSpec, rowsSpec_map_id tid rest (i + 1) (ctr + 1)]

theorem rowsSpec_map_rowKey (tid : String) :
    ∀ (ms : List Message) (i ctr : Nat),
    (rowsSpec tid ms i ctr).map rowKey = ms.map sortKey
  | [], _, _ => rfl
  | m :: rest, i, ctr => by
    simp [rowsSpec, rowKey, sortKey, rowsSpec_map_rowKey tid rest (i + 1) (ctr + 1)]

theorem chainSpec_some_eq_chainList :
    ∀ (n c : Nat), chainSpec (some c) (c + 1) n = chainList c n
  | 0, _ => rfl
  | n + 1, c => by
    simp [chainSpec, chainList, chainSpec_some_eq_chainList n (c + 1)]

theorem chainSpec_none_eq_chainList :
    ∀ (n c : Nat), chainSpec none c n = chainList c (n - 1)
  | 0, _ => rfl
  | n + 1, c => by
    simp [chainSpec, chainSpec_some_eq_chainList n c]

theorem chainList_length : ∀ (c n : Nat), (chainList c n).length = n
  | _, 0 => rfl
  | c, n + 1 => by simp [chainList, chainList_length (c + 1) n]

theorem chainList_get :
    ∀ (c n j : Nat) (h : j < (chainList c n).length),
    (chainList c n).get ⟨j, h⟩ = sibEdge (c + j) (c + j + 1)
  | c, n + 1, 0, h => by simp [chainList]
  | c, n + 1, j + 1, h => by
    have hlt : j < (chainList (c + 1) n).length := by
      simpa [chainList] using h
    simp only [chainList, List.get_cons_succ]
    rw [chainList_get (c + 1) n j hlt]
    congr 1 <;> omega

theorem chainList_rel :
    ∀ (c n : Nat), ∀ e ∈ chainList c n, e.relationType = "SIBLING"
  | c, n + 1, e, he => by
    rcases List.mem_cons.mp he with h | h
    · subst h; rfl
    · exact chainList_rel (c + 1) n e h

theorem attPhase_rels_types (s : GmailStore) (msgs : List MailRow) :
    ∀ (as : List AttachmentMeta) (ctr : Nat),
    ∀ e ∈ (attPhase s msgs as ctr).rels, e.relationType = "attachment"
  | a :: rest, ctr, e, he => by
    simp only [attPhase] at he
    rcases h : lookup_attachment s a.attachment_id with _ | row
    · rw [h] at he
      simp only at he
      rcases List.mem_append.mp he with h1 | h2
      · rcases hk : find_msg_key msgs a.message_id with _ | mk
        · rw [hk] at h1; simp at h1
        · rw [hk] at h1
          simp only [List.mem_singleton] at h1
          subst h1; rfl
      · exact attPhase_rels_types s msgs rest (ctr + 1) e h2
    · rw [h] at he
      exact attPhase_rels_types s msgs rest ctr e he

theorem sortMessages_pairwise (ms : List Message) :
    (sortMessages ms).Pairwise (fun a b => sortKey a ≤ sortKey b) := by
  haveI : IsTotal Message (fun a b => sortKey a ≤ sortKey b) :=
    ⟨fun a b => le_total (sortKey a) (sortKey b)⟩
  haveI : IsTrans Message (fun a b => sortKey a ≤ sortKey b) :=
    ⟨fun a b c hab hbc => le_trans hab hbc⟩
  exact List.sorted_insertionSort (fun a b => sortKey a ≤ sortKey b) ms

theorem sortMessages_length (ms : List Message) :
    (sortMessages ms).length = ms.length :=
  (List.perm_insertionSort (fun a b => sortKey a ≤ sortKey b) ms).length_eq

theorem mem_sortMessages {a : Message} {ms : List Message} :
    a ∈ sortMessages ms ↔ a ∈ ms :=
  (List.perm_insertionSort (fun a b => sortKey a ≤ sortKey b) ms).mem_iff

/-- C1: for a mail thread all of whose messages are new to the store, the
batch transformer first sorts the messages ascending by integer
`internalDate`; the produced `mails` rows follow that order (same external
ids, ascending internal dates), the first row carries `isParent` true and
every other row false, and exactly n-1 `SIBLING` edges are created, the
j-th running from the record of the j-th row (the immediate predecessor in
`internalDate` order) to the record of the (j+1)-th row. -/
theorem c1_thread_chain (s : GmailStore) (ctr : Nat) (meta : ThreadMeta)
    (hnew : ∀ m ∈ meta.messages, lookup_mail s m.id = none)
    (htid : meta.thread_id ≠ "") :
    (process_batch_core s ctr [meta]).messages.map MailRow.externalMessageId
        = (sortMessages meta.messages).map Message.id ∧
    ((process_batch_core s ctr [meta]).messages.map rowKey).Pairwise (· ≤ ·) ∧
    (process_batch_core s ctr [meta]).messages.length
        = meta.messages.length ∧
    (∀ j (h : j < (process_batch_core s ctr [meta]).messages.length),
      ((process_batch_core s ctr [meta]).messages.get ⟨j, h⟩).isParent
        = (j == 0)) ∧
    ((process_batch_core s ctr [meta]).recordRelations.filter
        (fun e => e.relationType == "SIBLING")).length
      = meta.messages.length - 1 ∧
    (∀ j (h1 : j + 1 < (process_batch_core s ctr [meta]).messages.length)
        (h2 : j < ((process_batch_core s ctr [meta]).recordRelations.filter
          (fun e => e.relationType == "SIBLING")).length),
      ((process_batch_core s ctr [meta]).recordRelations.filter
          (fun e => e.relationType == "SIBLING")).get ⟨j, h2⟩
        = sibEdge
            ((process_batch_core s ctr [meta]).messages.get
              ⟨j, Nat.lt_of_succ_lt h1⟩).key
            ((process_batch_core s ctr [meta]).messages.get ⟨j + 1, h1⟩).key) := by
  have hguard : (meta.thread_id == "") = false := by
    simp [htid]
  have hnew2 : ∀ m ∈ sortMessages meta.messages, lookup_mail s m.id = none :=
    fun m hm => hnew m (mem_sortMessages.mp hm)
  have hmails : (process_batch_core s ctr [meta]).messages
      = rowsSpec meta.thread_id (sortMessages meta.messages) 0 ctr := by
    simp only [process_batch_core, List.foldl_cons, List.foldl_nil,
      processThreadInto, hguard, Bool.false_eq_true, if_false, initAcc,
      List.nil_append]
    exact msgPhase_mails_all_new s meta.thread_id _ 0 none ctr hnew2
  have hsib : (process_batch_core s ctr [meta]).recordRelations.filter
      (fun e => e.relationType == "SIBLING")
      = chainList ctr ((sortMessages meta.messages).length - 1) := by
    simp only [process_batch_core, List.foldl_cons, List.foldl_nil,
      processThreadInto, hguard, Bool.false_eq_true, if_false, initAcc,
      List.nil_append]
    rw [msgPhase_rels_all_new s meta.thread_id _ 0 none ctr hnew2,
      chainSpec_none_eq_chainList, List.filter_append]
    have hA : ∀ (msgs : List MailRow) (c : Nat),
        ((attPhase s msgs meta.attachments c).rels).filter
          (fun e => e.relationType == "SIBLING") = [] := by
      intro msgs c
      rw [List.filter_eq_nil_iff]
      intro e he
      have h := attPhase_rels_types s msgs meta.attachments c e he
      simp [h]
    have hC : (chainList ctr ((sortMessages meta.messages).length - 1)).filter
        (fun e => e.relationType == "SIBLING")
        = chainList ctr ((sortMessages meta.messages).length - 1) := by
      rw [List.filter_eq_self]
      intro e he
      simp [chainList_rel _ _ e he]
    rw [hA, hC, List.append_nil]
  refine ⟨?_, ?_, ?_, ?_, ?_, ?_⟩
  · rw [hmails, rowsSpec_map_id]
  · rw [hmails, rowsSpec_map_rowKey]
    exact List.pairwise_map.mpr (sortMessages_pairwise meta.messages)
  · rw [hmails, rowsSpec_length, sortMessages_length]
  · rw [hmails]
    intro j h
    have h2 : j < (sortMessages meta.messages).length := by
      rw [rowsSpec_length] at h
      exact h
    rw [rowsSpec_get meta.thread_id _ 0 ctr j h h2]
    simp
  · rw [hsib, chainList_length, sortMessages_length]
  · rw [hmails, hsib]
    intro j h1 h2
    have hb1 : j < (sortMessages meta.messages).length := by
      rw [rowsSpec_length] at h1
      omega
    have hb2 : j + 1 < (sortMessages meta.messages).length := by
      rw [rowsSpec_length] at h1
      exact h1
    rw [chainList_get, rowsSpec_get meta.thread_id _ 0 ctr j _ hb1,
      rowsSpec_get meta.thread_id _ 0 ctr (j + 1) _ hb2]
    simp [Nat.add_assoc]

/-- Witness for C1 at the literal scenario of spec section 8 (thread T1
with internal dates 10, 20, 15): hypotheses hold and the sorted order of
the produced external ids is M1, M3, M2. -/
theorem c1_thread_chain_witness :
    (∀ m ∈ (⟨"T1", [⟨"M1", some 10⟩, ⟨"M2", some 20⟩, ⟨"M3", some 15⟩],
        [], []⟩ : ThreadMeta).messages,
      lookup_mail ⟨[], [], [], [], [], [], [], []⟩ m.id = none) ∧
    (⟨"T1", [⟨"M1", some 10⟩, ⟨"M2", some 20⟩, ⟨"M3", some 15⟩],
        [], []⟩ : ThreadMeta).thread_id ≠ "" ∧
    (process_batch_core ⟨[], [], [], [], [], [], [], []⟩ 0
        [⟨"T1", [⟨"M1", some 10⟩, ⟨"M2", some 20⟩, ⟨"M3", some 15⟩],
          [], []⟩]).messages.map MailRow.externalMessageId
      = (sortMessages [⟨"M1", some 10⟩, ⟨"M2", some 20⟩,
          ⟨"M3", some 15⟩]).map Message.id :=
  ⟨by decide, by decide,
    (c1_thread_chain ⟨[], [], [], [], [], [], [], []⟩ 0
      ⟨"T1", [⟨"M1", some 10⟩, ⟨"M2", some 20⟩, ⟨"M3", some 15⟩], [], []⟩
      (by decide) (by decide)).1⟩

theorem msgPhase_records_keys (s : GmailStore) (tid : String) :
    ∀ (ms : List Message) (i : Nat) (prev : Option Nat) (ctr : Nat),
    (msgPhase s tid ms i prev ctr).records.map RecordRow.key
      = (msgPhase s tid ms i prev ctr).mails.map MailRow.key
  | [], _, _, _ => rfl
  | m :: rest, i, prev, ctr => by
    rcases h : lookup_mail s m.id with _ | row
    · simp only [msgPhase, h]
      simp [msgPhase_records_keys s tid rest (i + 1) (some ctr) (ctr + 1)]
    · simp only [msgPhase, h]
      simpa using msgPhase_records_keys s tid rest (i + 1) (some row.key) ctr

theorem msgPhase_records_type (s : GmailStore) (tid : String) :
    ∀ (ms : List Message) (i : Nat) (prev : Option Nat) (ctr : Nat),
    ∀ r ∈ (msgPhase s tid ms i prev ctr).records, r.recordType = "MESSAGE"
  | m :: rest, i, prev, ctr, r, hr => by
    simp only [msgPhase] at hr
    rcases h : lookup_mail s m.id with _ | row
    · rw [h] at hr
      simp only at hr
      rcases List.mem_cons.mp hr with h1 | h2
      · subst h1; rfl
      · exact msgPhase_records_type s tid rest (i + 1) (some ctr) (ctr + 1) r h2
    · rw [h] at hr
      exact msgPhase_records_type s tid rest (i + 1) (some row.key) ctr r hr

theorem attPhase_records_keys (s : GmailStore) (msgs : List MailRow) :
    ∀ (as : List AttachmentMeta) (ctr : Nat),
    (attPhase s msgs as ctr).records.map RecordRow.key
      = (attPhase s msgs as ctr).atts.map AttachmentRow.key
  | [], _ => rfl
  | a :: rest, ctr => by
    rcases h : lookup_attachment s a.attachment_id with _ | row
    · simp only [attPhase, h]
      simp [attPhase_records_keys s msgs rest (ctr + 1)]
    · simp only [attPhase, h]
      simpa using attPhase_records_keys s msgs rest ctr

theorem attPhase_records_type (s : GmailStore) (msgs : List MailRow) :
    ∀ (as : List AttachmentMeta) (ctr : Nat),
    ∀ r ∈ (attPhase s msgs as ctr).records, r.recordType = "attachment"
  | a :: rest, ctr, r, hr => by
    simp only [attPhase] at hr
    rcases h : lookup_attachment s a.attachment_id with _ | row
    · rw [h] at hr
      simp only at hr
      rcases List.mem_cons.mp hr with h1 | h2
      · subst h1; rfl
      · exact attPhase_records_type s msgs rest (ctr + 1) r h2
    · rw [h] at hr
      exact attPhase_records_type s msgs rest ctr r hr

theorem filter_of_all_eq {l : List RecordRow} {t : String}
    (h : ∀ r ∈ l, r.recordType = t) :
    l.filter (fun r => r.recordType == t) = l := by
  rw [List.filter_eq_self]
  intro r hr
  simp [h r hr]

theorem filter_of_all_ne {l : List RecordRow} {t u : String} (hne : t ≠ u)
    (h : ∀ r ∈ l, r.recordType = t) :
    l.filter (fun r => r.recordType == u) = [] := by
  rw [List.filter_eq_nil_iff]
  intro r hr
  simp [h r hr, hne]

theorem processThreadInto_mirror (s : GmailStore) (meta : ThreadMeta)
    (acc : BatchAcc)
    (h1 : (acc.records.filter (fun r => r.recordType == "MESSAGE")).map
        RecordRow.key = acc.messages.map MailRow.key)
    (h2 : (acc.records.filter (fun r => r.recordType == "attachment")).map
        RecordRow.key = acc.attachments.map AttachmentRow.key) :
    (((processThreadInto s acc meta).records.filter
        (fun r => r.recordType == "MESSAGE")).map RecordRow.key
      = (processThreadInto s acc meta).messages.map MailRow.key) ∧
    (((processThreadInto s acc meta).records.filter
        (fun r => r.recordType == "attachment")).map RecordRow.key
      = (processThreadInto s acc meta).attachments.map AttachmentRow.key) := by
  by_cases hg : (meta.thread_id == "") = true
  · simp only [processThreadInto, hg, if_true]
    exact ⟨h1, h2⟩
  · rw [Bool.not_eq_true] at hg
    simp only [processThreadInto, hg, Bool.false_eq_true, if_false]
    constructor
    · simp only [List.filter_append, List.map_append]
      rw [h1,
        filter_of_all_eq (msgPhase_records_type s meta.thread_id _ 0 none acc.ctr),
        filter_of_all_ne (by decide)
          (attPhase_records_type s _ meta.attachments _),
        msgPhase_records_keys]
      simp
    · simp only [List.filter_append, List.map_append]
      rw [h2,
        filter_of_all_ne (by decide)
          (msgPhase_records_type s meta.thread_id _ 0 none acc.ctr),
        filter_of_all_eq (attPhase_records_type s _ meta.attachments _),
        attPhase_records_keys]
      simp

theorem foldl_mirror (s : GmailStore) :
    ∀ (metas : List ThreadMeta) (acc : BatchAcc),
    ((acc.records.filter (fun r => r.recordType == "MESSAGE")).map
        RecordRow.key = acc.messages.map MailRow.key) →
    ((acc.records.filter (fun r => r.recordType == "attachment")).map
        RecordRow.key = acc.attachments.map AttachmentRow.key) →
    ((((metas.foldl (processThreadInto s) acc)).records.filter
        (fun r => r.recordType == "MESSAGE")).map RecordRow.key
      = (metas.foldl (processThreadInto s) acc).messages.map MailRow.key) ∧
    ((((metas.foldl (processThreadInto s) acc)).records.filter
        (fun r => r.recordType == "attachment")).map RecordRow.key
      = (metas.foldl (processThreadInto s) acc).attachments.map
          AttachmentRow.key)
  | [], acc, h1, h2 => ⟨h1, h2⟩
  | meta :: rest, acc, h1, h2 => by
    have step := processThreadInto_mirror s meta acc h1 h2
    exact foldl_mirror s rest _ step.1 step.2

/-- C2 amended: every vertex the mail batch transformer creates is
mirrored 1:1, in order and with the same key, by a records row, and the
mirroring row has `recordType` `MESSAGE` for a mails vertex but the
literal lowercase string `attachment` (not `ATTACHMENT`) for an
attachments vertex; in particular the number of records rows of each of
those two type strings equals the number of new mails rows, respectively
new attachments rows. -/
theorem c2_record_mirroring (s : GmailStore) (ctr : Nat)
    (metas : List ThreadMeta) :
    (((process_batch_core s ctr metas).records.filter
        (fun r => r.recordType == "MESSAGE")).map RecordRow.key
      = (process_batch_core s ctr metas).messages.map MailRow.key) ∧
    (((process_batch_core s ctr metas).records.filter
        (fun r => r.recordType == "attachment")).map RecordRow.key
      = (process_batch_core s ctr metas).attachments.map AttachmentRow.key) ∧
    (((process_batch_core s ctr metas).records.filter
        (fun r => r.recordType == "MESSAGE")).length
      = (process_batch_core s ctr metas).messages.length) ∧
    (((process_batch_core s ctr metas).records.filter
        (fun r => r.recordType == "attachment")).length
      = (process_batch_core s ctr metas).attachments.length) := by
  have h := foldl_mirror s metas (initAcc ctr) (by rfl) (by rfl)
  refine ⟨h.1, h.2, ?_, ?_⟩
  · have := congrArg List.length h.1
    simpa using this
  · have := congrArg List.length h.2
    simpa using this

/-- C2 counterexample: at a batch holding one new attachment, the batch
transformer creates one attachments row, yet the number of records rows
with `recordType=ATTACHMENT` is 0, not 1 (the code writes the lowercase
string `attachment`, line 456). -/
theorem c2_counterexample :
    ((process_batch_core ⟨[], [], [], [], [], [], [], []⟩ 0
        [⟨"T1", [], [⟨"A1", "M9"⟩], []⟩]).attachments.length = 1) ∧
    ((process_batch_core ⟨[], [], [], [], [], [], [], []⟩ 0
        [⟨"T1", [], [⟨"A1", "M9"⟩], []⟩]).records.filter
        (fun r => r.recordType == "ATTACHMENT")).length
      ≠ (process_batch_core ⟨[], [], [], [], [], [], [], []⟩ 0
        [⟨"T1", [], [⟨"A1", "M9"⟩], []⟩]).attachments.length := by
  decide

/-- C3: in the drive batch transformer the child endpoint of every
`PARENT_CHILD` edge is resolved from the loop variable `file_id`, which
after the file loop is stuck at the id of the last metadata entry of the
batch (the parent loop never rebinds it).  At the batch F1 (child of P,
listed first) and F2 (listed last), the code emits
`records/100 -> records/1` -- key 1 is F2's record -- although the record
key resolved from F1's own externalId is 0, so the edge named in the claim
(parent record to the record of the file named in that metadata entry) is
not the edge created. -/
theorem c3_stale_child_endpoint :
    ((drive_process_batch_core ⟨[⟨100, "root", "p"⟩], []⟩ 0
        [⟨"f1", "child", some ["p"]⟩, ⟨"f2", "other", none⟩]).files.map
      FileRow.externalFileId = ["f1", "f2"]) ∧
    ((drive_process_batch_core ⟨[⟨100, "root", "p"⟩], []⟩ 0
        [⟨"f1", "child", some ["p"]⟩, ⟨"f2", "other", none⟩]).files.map
      FileRow.key = [0, 1]) ∧
    ((drive_process_batch_core ⟨[⟨100, "root", "p"⟩], []⟩ 0
        [⟨"f1", "child", some ["p"]⟩, ⟨"f2", "other", none⟩]).rels
      = [pcEdge 100 1]) ∧
    (childKeyPerSpec
        ((⟨[⟨100, "root", "p"⟩], []⟩ : DriveStore).files ++
          (drive_process_batch_core ⟨[⟨100, "root", "p"⟩], []⟩ 0
            [⟨"f1", "child", some ["p"]⟩, ⟨"f2", "other", none⟩]).files)
        ⟨"f1", "child", some ["p"]⟩ = some 0) ∧
    pcEdge 100 1 ≠ pcEdge 100 0 := by
  decide

theorem permEmailsForMessage_shape (s : GmailStore) (msgKey : Nat)
    (role : String) :
    ∀ (emails : List String),
    ∀ e ∈ (permEmailsForMessage s msgKey role emails).1,
    (e.efrom.coll = "users" ∨ e.efrom.coll = "groups" ∨
        e.efrom.coll = "people") ∧
      e.eto = ⟨"messages", toString msgKey⟩ ∧ e.relationType = "HAS_ACCESS"
  | email :: rest, e, he => by
    have ih := permEmailsForMessage_shape s msgKey role rest
    simp only [permEmailsForMessage] at he
    rcases hr : get_entity_id_by_email s email with _ | eid
    · rw [hr] at he
      exact ih e he
    · rw [hr] at he
      by_cases h1 : users_has s eid = true
      · simp only [h1, if_true] at he
        rcases List.mem_cons.mp he with h3 | h3
        · subst h3; exact ⟨Or.inl rfl, rfl, rfl⟩
        · exact ih e h3
      · by_cases h2 : groups_has s eid = true
        · simp only [h1, h2, if_true, if_false, Bool.false_eq_true] at he
          rcases List.mem_cons.mp he with h3 | h3
          · subst h3; exact ⟨Or.inr (Or.inl rfl), rfl, rfl⟩
          · exact ih e h3
        · simp only [h1, h2, if_false, Bool.false_eq_true] at he
          rcases List.mem_cons.mp he with h3 | h3
          · subst h3; exact ⟨Or.inr (Or.inr rfl), rfl, rfl⟩
          · exact ih e h3

theorem permEmailsForAttachment_shape (s : GmailStore) (attKey : Nat)
    (role : String) :
    ∀ (emails : List String),
    ∀ e ∈ permEmailsForAttachment s attKey role emails,
    (e.efrom.coll = "users" ∨ e.efrom.coll = "groups") ∧
      e.eto = ⟨"attachments", toString attKey⟩ ∧ e.relationType = "HAS_ACCESS"
  | email :: rest, e, he => by
    have ih := permEmailsForAttachment_shape s attKey role rest
    simp only [permEmailsForAttachment] at he
    rcases hr : get_entity_id_by_email s email with _ | eid
    · rw [hr] at he
      exact ih e he
    · rw [hr] at he
      by_cases h1 : users_has s eid = true
      · simp only [h1, if_true] at he
        rcases List.mem_cons.mp he with h3 | h3
        · subst h3; exact ⟨Or.inl rfl, rfl, rfl⟩
        · exact ih e h3
      · by_cases h2 : groups_has s eid = true
        · simp only [h1, h2, if_true, if_false, Bool.false_eq_true] at he
          rcases List.mem_cons.mp he with h3 | h3
          · subst h3; exact ⟨Or.inr rfl, rfl, rfl⟩
          · exact ih e h3
        · simp only [h1, h2, if_false, Bool.false_eq_true] at he
          exact ih e he

theorem permAttachments_shape (s : GmailStore) (batchAtts : List AttachmentRow)
    (role : String) (emails : List String) :
    ∀ (aids : List String),
    ∀ e ∈ permAttachments s batchAtts role emails aids,
    (e.efrom.coll = "users" ∨ e.efrom.coll = "groups") ∧
      e.eto.coll = "attachments" ∧ e.relationType = "HAS_ACCESS"
  | aid :: rest, e, he => by
    have ih := permAttachments_shape s batchAtts role emails rest
    simp only [permAttachments] at he
    rcases List.mem_append.mp he with h1 | h2
    · rcases hk : find_att_key batchAtts aid with _ | ak
      · rw [hk] at h1; simp at h1
      · rw [hk] at h1
        have h := permEmailsForAttachment_shape s ak role emails e h1
        exact ⟨h.1, by rw [h.2.1], h.2.2⟩
    · exact ih e h2

theorem permPhase_shape (s : GmailStore) (batchMsgs : List MailRow)
    (batchAtts : List AttachmentRow) :
    ∀ (perms : List PermissionMeta),
    ∀ e ∈ (permPhase s batchMsgs batchAtts perms).1,
    (e.efrom.coll = "users" ∨ e.efrom.coll = "groups" ∨
        e.efrom.coll = "people") ∧
      (e.eto.coll = "messages" ∨ e.eto.coll = "attachments") ∧
      e.relationType = "HAS_ACCESS"
  | p :: rest, e, he => by
    have ih := permPhase_shape s batchMsgs batchAtts rest
    simp only [permPhase] at he
    rcases List.mem_append.mp he with h1 | h2
    · rcases List.mem_append.mp h1 with h3 | h4
      · rcases hk : find_msg_key batchMsgs p.messageId with _ | mk
        · rw [hk] at h3; simp at h3
        · rw [hk] at h3
          have h := permEmailsForMessage_shape s mk p.role p.users e h3
          exact ⟨h.1, Or.inl (by rw [h.2.1]), h.2.2⟩
      · have h := permAttachments_shape s batchAtts p.role p.users
          p.attachmentIds e h4
        exact ⟨by tauto, Or.inr h.2.1, h.2.2⟩
    · exact ih e h2

theorem processThreadInto_perms_shape (s : GmailStore) (meta : ThreadMeta)
    (acc : BatchAcc) :
    ∀ e ∈ (processThreadInto s acc meta).permissions,
    e ∈ acc.permissions ∨
      ((e.efrom.coll = "users" ∨ e.efrom.coll = "groups" ∨
          e.efrom.coll = "people") ∧
        (e.eto.coll = "messages" ∨ e.eto.coll = "attachments") ∧
        e.relationType = "HAS_ACCESS") := by
  intro e he
  by_cases hg : (meta.thread_id == "") = true
  · rw [processThreadInto, if_pos hg] at he
    exact Or.inl he
  · rw [Bool.not_eq_true] at hg
    simp only [processThreadInto, hg, Bool.false_eq_true, if_false] at he
    rcases List.mem_append.mp he with h1 | h2
    · exact Or.inl h1
    · exact Or.inr (permPhase_shape s _ _ meta.permissions e h2)

theorem foldl_perms_shape (s : GmailStore) :
    ∀ (metas : List ThreadMeta) (acc : BatchAcc),
    (∀ e ∈ acc.permissions,
      (e.efrom.coll = "users" ∨ e.efrom.coll = "groups" ∨
          e.efrom.coll = "people") ∧
        (e.eto.coll = "messages" ∨ e.eto.coll = "attachments") ∧
        e.relationType = "HAS_ACCESS") →
    ∀ e ∈ (metas.foldl (processThreadInto s) acc).permissions,
    (e.efrom.coll = "users" ∨ e.efrom.coll = "groups" ∨
        e.efrom.coll = "people") ∧
      (e.eto.coll = "messages" ∨ e.eto.coll = "attachments") ∧
      e.relationType = "HAS_ACCESS"
  | [], acc, hacc, e, he => hacc e he
  | meta :: rest, acc, hacc, e, he => by
    refine foldl_perms_shape s rest (processThreadInto s acc meta) ?_ e he
    intro x hx
    rcases processThreadInto_perms_shape s meta acc x hx with h | h
    · exact hacc x h
    · exact h

/-- C5 amended: every `HAS_ACCESS` edge the mail batch transformer writes
to the permissions collection runs from a principal vertex (`users`,
`groups` or `people`) to the `messages` or `attachments` vertex that
shares the target record's key -- not to the `records` vertex the claim
names -- and the drive permission edge written by `process_drive_data` for
the drive itself is reversed: it runs from the drive's records vertex to
the users vertex. -/
theorem c5_permission_edge_endpoints :
    (∀ (s : GmailStore) (ctr : Nat) (metas : List ThreadMeta),
      ∀ e ∈ (process_batch_core s ctr metas).permissions,
      (e.efrom.coll = "users" ∨ e.efrom.coll = "groups" ∨
          e.efrom.coll = "people") ∧
        (e.eto.coll = "messages" ∨ e.eto.coll = "attachments") ∧
        e.relationType = "HAS_ACCESS") ∧
    (∀ (rk : Nat) (uid al : String),
      (drive_user_record_permission rk uid al).efrom.coll = "records" ∧
        (drive_user_record_permission rk uid al).eto.coll = "users") :=
  ⟨fun s ctr metas =>
    foldl_perms_shape s metas (initAcc ctr) (fun e he => by cases he),
   fun rk uid al => ⟨rfl, rfl⟩⟩

/-- Witness for C5 at a concrete batch: the single permission edge exists
and has its from-endpoint in `users` and its to-endpoint in `messages`. -/
theorem c5_permission_edge_endpoints_witness :
    (({ efrom := ⟨"users", "u1"⟩, eto := ⟨"messages", "0"⟩,
          relationType := "HAS_ACCESS", role := some "reader" } : Edge)
      ∈ (process_batch_core
          ⟨[], [], [], [], [], [("u1", "alice@x.com")], [], []⟩ 0
          [⟨"T1", [⟨"M1", some 1⟩], [],
            [⟨"M1", [], ["alice@x.com"], "reader"⟩]⟩]).permissions) ∧
    (({ efrom := ⟨"users", "u1"⟩, eto := ⟨"messages", "0"⟩,
          relationType := "HAS_ACCESS", role := some "reader" } : Edge).efrom.coll
          = "users" ∨
      ({ efrom := ⟨"users", "u1"⟩, eto := ⟨"messages", "0"⟩,
          relationType := "HAS_ACCESS", role := some "reader" } : Edge).efrom.coll
          = "groups" ∨
      ({ efrom := ⟨"users", "u1"⟩, eto := ⟨"messages", "0"⟩,
          relationType := "HAS_ACCESS", role := some "reader" } : Edge).efrom.coll
          = "people") :=
  ⟨by decide,
    (c5_permission_edge_endpoints.1
      ⟨[], [], [], [], [], [("u1", "alice@x.com")], [], []⟩ 0
      [⟨"T1", [⟨"M1", some 1⟩], [], [⟨"M1", [], ["alice@x.com"], "reader"⟩]⟩]
      { efrom := ⟨"users", "u1"⟩, eto := ⟨"messages", "0"⟩,
          relationType := "HAS_ACCESS", role := some "reader" }
      (by decide)).1⟩

/-- C5 counterexample: at a concrete batch the to-endpoint of the written
permission edge lies in the `messages` collection, not in `records`, so a
`HAS_ACCESS` edge is directed to a non-records vertex. -/
theorem c5_counterexample :
    ((process_batch_core ⟨[], [], [], [], [], [("u1", "alice@x.com")], [], []⟩
        0 [⟨"T1", [⟨"M1", some 1⟩], [],
          [⟨"M1", [], ["alice@x.com"], "reader"⟩]⟩]).permissions.map
      (fun e => e.eto.coll) = ["messages"]) ∧
    ("messages" : String) ≠ "records" := by
  decide

/-- C4 amended: during mail batch processing an unknown principal (an
email whose resolved entity id lies neither in `users` nor in `groups`) is
upserted into `people` and still yields a `HAS_ACCESS` edge from the
people vertex -- but only for the message target (the edge points at the
`messages` vertex carrying the record's key); for the attachment targets
named in the same descriptor the unknown principal is skipped with a
warning (lines 546-548) and no edge at all originates from a `people`
vertex, so that permission is silently dropped. -/
theorem c4_people_fallback (s : GmailStore) (msgKey attKey : Nat)
    (role : String) (emails : List String) (email eid : String)
    (hmem : email ∈ emails)
    (hres : get_entity_id_by_email s email = some eid)
    (hu : users_has s eid = false)
    (hg : groups_has s eid = false) :
    (({ efrom := ⟨"people", eid⟩, eto := ⟨"messages", toString msgKey⟩,
        relationType := "HAS_ACCESS", role := some role } : Edge)
      ∈ (permEmailsForMessage s msgKey role emails).1) ∧
    ((eid, email) ∈ (permEmailsForMessage s msgKey role emails).2) ∧
    (∀ e ∈ permEmailsForAttachment s attKey role emails,
      e.efrom.coll ≠ "people") := by
  have h3 : ∀ e ∈ permEmailsForAttachment s attKey role emails,
      e.efrom.coll ≠ "people" := by
    intro e he
    rcases (permEmailsForAttachment_shape s attKey role emails e he).1 with
      h | h <;> simp [h]
  have h12 : ∀ (es : List String), email ∈ es →
      (({ efrom := ⟨"people", eid⟩, eto := ⟨"messages", toString msgKey⟩,
          relationType := "HAS_ACCESS", role := some role } : Edge)
        ∈ (permEmailsForMessage s msgKey role es).1) ∧
      ((eid, email) ∈ (permEmailsForMessage s msgKey role es).2) := by
    intro es
    induction es with
    | nil => intro h; cases h
    | cons e0 rest ih =>
      intro hmem2
      rcases List.mem_cons.mp hmem2 with heq | hmem3
      · subst heq
        simp only [permEmailsForMessage, hres, hu, hg, Bool.false_eq_true,
          if_false]
        exact ⟨List.mem_cons_self _ _, List.mem_cons_self _ _⟩
      · have hprev := ih hmem3
        simp only [permEmailsForMessage]
        rcases hr : get_entity_id_by_email s e0 with _ | eid0
        · simp only [hr]
          exact hprev
        · simp only [hr]
          by_cases h1 : users_has s eid0 = true
          · simp only [h1, if_true]
            exact ⟨List.mem_cons_of_mem _ hprev.1, hprev.2⟩
          · by_cases h2 : groups_has s eid0 = true
            · simp only [h1, h2, if_true, if_false, Bool.false_eq_true]
              exact ⟨List.mem_cons_of_mem _ hprev.1, hprev.2⟩
            · simp only [h1, h2, if_false, Bool.false_eq_true]
              exact ⟨List.mem_cons_of_mem _ hprev.1,
                List.mem_cons_of_mem _ hprev.2⟩
  exact ⟨(h12 emails hmem).1, (h12 emails hmem).2, h3⟩

/-- Witness for C4 at the literal scenario of spec section 8 (unknown
principal ext@partner.com): the hypotheses hold in a store that knows only
alice, and the fallback edge from the people vertex is produced for the
message target. -/
theorem c4_people_fallback_witness :
    ("ext@partner.com" ∈ ["ext@partner.com"]) ∧
    (get_entity_id_by_email
        ⟨[], [], [], [], [], [("u1", "alice@x.com")], [], []⟩
        "ext@partner.com" = some "h-ext@partner.com") ∧
    (users_has ⟨[], [], [], [], [], [("u1", "alice@x.com")], [], []⟩
        "h-ext@partner.com" = false) ∧
    (groups_has ⟨[], [], [], [], [], [("u1", "alice@x.com")], [], []⟩
        "h-ext@partner.com" = false) ∧
    (({ efrom := ⟨"people", "h-ext@partner.com"⟩, eto := ⟨"messages", "0"⟩,
          relationType := "HAS_ACCESS", role := some "reader" } : Edge)
      ∈ (permEmailsForMessage
          ⟨[], [], [], [], [], [("u1", "alice@x.com")], [], []⟩
          0 "reader" ["ext@partner.com"]).1) :=
  ⟨by decide, by decide, by decide, by decide,
    (c4_people_fallback ⟨[], [], [], [], [], [("u1", "alice@x.com")], [], []⟩
      0 1 "reader" ["ext@partner.com"] "ext@partner.com" "h-ext@partner.com"
      (by decide) (by decide) (by decide) (by decide)).1⟩

/-- C4 counterexample: a batch whose permission descriptor names one new
message and one new attachment for the unknown principal ext@partner.com
creates the people fallback edge for the message but no edge whatsoever to
the attachments vertex: the attachment permission of the unknown principal
is silently dropped, contradicting "never". -/
theorem c4_counterexample :
    ((process_batch_core ⟨[], [], [], [], [], [], [], []⟩ 0
        [⟨"T1", [⟨"M1", some 1⟩], [⟨"A1", "M1"⟩],
          [⟨"M1", ["A1"], ["ext@partner.com"], "reader"⟩]⟩]).attachments.length
      = 1) ∧
    ((process_batch_core ⟨[], [], [], [], [], [], [], []⟩ 0
        [⟨"T1", [⟨"M1", some 1⟩], [⟨"A1", "M1"⟩],
          [⟨"M1", ["A1"], ["ext@partner.com"], "reader"⟩]⟩]).permissions.filter
        (fun e => e.eto.coll == "attachments") = []) ∧
    ((process_batch_core ⟨[], [], [], [], [], [], [], []⟩ 0
        [⟨"T1", [⟨"M1", some 1⟩], [⟨"A1", "M1"⟩],
          [⟨"M1", ["A1"], ["ext@partner.com"], "reader"⟩]⟩]).permissions.map
        (fun e => e.efrom.coll) = ["people"]) := by
  decide

/-- C9 amended: resume is rejected (returns false, no task launched)
whenever a syncStates row exists whose state differs from PAUSED, and
succeeds when the state is PAUSED; but when no row exists at all, resume
does not reject: it falls back to start ("starting fresh"), which launches
a new sync task and returns true. -/
theorem c9_resume_gating :
    (∀ st : String, st ≠ "PAUSED" → drive_resume [some st] = (false, false)) ∧
    (drive_resume [some "PAUSED"] = (true, true)) ∧
    (drive_resume [none] = drive_start [none]) ∧
    (drive_start [none] = (true, true)) ∧
    (∀ st : String, st ≠ "PAUSED" → gmail_resume (some st) = (false, false)) ∧
    (gmail_resume (some "PAUSED") = (true, true)) ∧
    (gmail_resume none = gmail_start none) ∧
    (gmail_start none = (true, true)) := by
  refine ⟨?_, by decide, rfl, by decide, ?_, by decide, rfl, by decide⟩
  · intro st h
    simp only [drive_resume]
    by_cases h1 : (st == "RUNNING") = true
    · simp [h1]
    · simp [h1, h]
  · intro st h
    simp only [gmail_resume]
    by_cases h1 : (st == "RUNNING") = true
    · simp [h1]
    · simp [h1, h]

/-- Witness for C9 at the COMPLETED state: resume is rejected and launches
nothing. -/
theorem c9_resume_gating_witness :
    ("COMPLETED" : String) ≠ "PAUSED" ∧
    drive_resume [some "COMPLETED"] = (false, false) :=
  ⟨by decide, c9_resume_gating.1 "COMPLETED" (by decide)⟩

/-- C9 counterexample: with no syncStates row for the user, resume returns
true and launches a sync task (the "starting fresh" fallback to start),
contradicting the claim that it returns false and launches nothing. -/
theorem c9_counterexample :
    drive_resume [none] = (true, true) ∧ gmail_resume none = (true, true) := by
  decide

/-- C8: on the enterprise Gmail service a set stop flag does not lead to a
persisted PAUSED state: the base-class `_should_stop` dereferences
`self.gmail_user_service`, which `GmailSyncEnterpriseService` never
assigns, so the very first stop check of `perform_initial_sync` raises
`AttributeError`; the handler persists nothing (no user is bound yet) and
the run returns `False` -- no batch is started, but `syncState` is never
set to `PAUSED` as the claim requires. -/
theorem c8_enterprise_stop_not_paused :
    ((gmail_enterprise_initial_sync true "user@x.com"
        ⟨[], [], [], [], [], [], [], []⟩ 0
        [[⟨"T1", [⟨"M1", some 1⟩], [], []⟩]] (fun _ => true)).result
      = false) ∧
    ((gmail_enterprise_initial_sync true "user@x.com"
        ⟨[], [], [], [], [], [], [], []⟩ 0
        [[⟨"T1", [⟨"M1", some 1⟩], [], []⟩]] (fun _ => true)).stateWrites
      = []) ∧
    ((gmail_enterprise_initial_sync true "user@x.com"
        ⟨[], [], [], [], [], [], [], []⟩ 0
        [[⟨"T1", [⟨"M1", some 1⟩], [], []⟩]] (fun _ => true)).batchResults
      = []) := by
  refine ⟨rfl, rfl, rfl⟩

theorem save_to_people_txn_fields (s : GmailStore) (eid email : String) :
    (save_to_people s eid email).mails = s.mails ∧
    (save_to_people s eid email).attachments = s.attachments ∧
    (save_to_people s eid email).records = s.records ∧
    (save_to_people s eid email).recordRelations = s.recordRelations ∧
    (save_to_people s eid email).permissions = s.permissions := by
  unfold save_to_people
  split <;> exact ⟨rfl, rfl, rfl, rfl, rfl⟩

theorem applyPeopleSaves_txn_fields (s : GmailStore) :
    ∀ (l : List (String × String)),
    (applyPeopleSaves s l).mails = s.mails ∧
    (applyPeopleSaves s l).attachments = s.attachments ∧
    (applyPeopleSaves s l).records = s.records ∧
    (applyPeopleSaves s l).recordRelations = s.recordRelations ∧
    (applyPeopleSaves s l).permissions = s.permissions
  | [] => ⟨rfl, rfl, rfl, rfl, rfl⟩
  | (eid, email) :: rest => by
    have h1 := save_to_people_txn_fields s eid email
    have h2 := applyPeopleSaves_txn_fields (save_to_people s eid email) rest
    simp only [applyPeopleSaves]
    exact ⟨h2.1.trans h1.1, h2.2.1.trans h1.2.1, h2.2.2.1.trans h1.2.2.1,
      h2.2.2.2.1.trans h1.2.2.2.1, h2.2.2.2.2.trans h1.2.2.2.2⟩

theorem runBatches_results_length (s : GmailStore) (ctr : Nat) :
    ∀ (batches : List (List ThreadMeta)) (ok : Nat → Bool) (i : Nat),
    ((runBatches s ctr batches ok i).2.2).length = batches.length
  | [], _, _ => rfl
  | b :: rest, ok, i => by
    simp only [runBatches, List.length_cons]
    rw [runBatches_results_length _ _ rest ok (i + 1)]

/-- C7: a failing sub-operation inside the batch transaction makes
`process_batch` abort: it returns `False` and none of the batch's
transactional writes (mails, attachments, records, recordRelations,
permissions) is observable in the store; and the surrounding enterprise
sync loop still attempts every batch (one outcome per batch, failed ones
skipped with `continue`) while the user's syncStates writes for the run
are exactly RUNNING followed by COMPLETED -- never FAILED. -/
theorem c7_txn_abort_and_skip :
    (∀ (s : GmailStore) (ctr : Nat) (b : List ThreadMeta),
      (process_batch s ctr b false).txnOpened = true →
      (process_batch s ctr b false).success = false ∧
      (process_batch s ctr b false).store.mails = s.mails ∧
      (process_batch s ctr b false).store.attachments = s.attachments ∧
      (process_batch s ctr b false).store.records = s.records ∧
      (process_batch s ctr b false).store.recordRelations
        = s.recordRelations ∧
      (process_batch s ctr b false).store.permissions = s.permissions) ∧
    (∀ (email : String) (s : GmailStore) (ctr : Nat)
        (batches : List (List ThreadMeta)) (ok : Nat → Bool),
      (gmail_enterprise_initial_sync false email s ctr batches
          ok).batchResults.length = batches.length ∧
      (gmail_enterprise_initial_sync false email s ctr batches ok).stateWrites
        = [(email, "RUNNING"), (email, "COMPLETED")]) := by
  constructor
  · intro s ctr b hopen
    have hfields := applyPeopleSaves_txn_fields s
      (process_batch_core s ctr b).peopleSaves
    cases hc : (process_batch_core s ctr b).messages.isEmpty &&
        (process_batch_core s ctr b).attachments.isEmpty with
    | true => simp [process_batch, hc] at hopen
    | false =>
      simp only [process_batch, hc, Bool.false_eq_true, if_false]
      exact ⟨trivial, hfields.1, hfields.2.1, hfields.2.2.1, hfields.2.2.2.1,
        hfields.2.2.2.2⟩
  · intro email s ctr batches ok
    constructor
    · simp only [gmail_enterprise_initial_sync, Bool.false_eq_true, if_false]
      exact runBatches_results_length s ctr batches ok 0
    · rfl

/-- Witness for C7 at a concrete batch whose transaction fails: the
transaction was opened, the batch reports failure, and the mails
collection is untouched. -/
theorem c7_txn_abort_and_skip_witness :
    ((process_batch ⟨[], [], [], [], [], [], [], []⟩ 0
        [⟨"T1", [⟨"M1", some 1⟩], [], []⟩] false).txnOpened = true) ∧
    ((process_batch ⟨[], [], [], [], [], [], [], []⟩ 0
        [⟨"T1", [⟨"M1", some 1⟩], [], []⟩] false).success = false) ∧
    ((process_batch ⟨[], [], [], [], [], [], [], []⟩ 0
        [⟨"T1", [⟨"M1", some 1⟩], [], []⟩] false).store.mails = []) :=
  ⟨by decide,
    (c7_txn_abort_and_skip.1 ⟨[], [], [], [], [], [], [], []⟩ 0
      [⟨"T1", [⟨"M1", some 1⟩], [], []⟩] (by decide)).1,
    ((c7_txn_abort_and_skip.1 ⟨[], [], [], [], [], [], [], []⟩ 0
      [⟨"T1", [⟨"M1", some 1⟩], [], []⟩] (by decide)).2.1).trans rfl⟩

theorem msgPhase_all_existing (s : GmailStore) (tid : String) :
    ∀ (ms : List Message) (i : Nat) (prev : Option Nat) (ctr : Nat),
    (∀ m ∈ ms, (lookup_mail s m.id).isSome = true) →
    (msgPhase s tid ms i prev ctr).mails = [] ∧
    (msgPhase s tid ms i prev ctr).records = [] ∧
    (msgPhase s tid ms i prev ctr).rels = [] ∧
    (msgPhase s tid ms i prev ctr).ctr = ctr
  | [], _, _, _, _ => ⟨rfl, rfl, rfl, rfl⟩
  | m :: rest, i, prev, ctr, h => by
    have hm := h m (List.mem_cons_self m _)
    rcases hrow : lookup_mail s m.id with _ | row
    · rw [hrow] at hm; cases hm
    · have hr := msgPhase_all_existing s tid rest (i + 1) (some row.key) ctr
        (fun x hx => h x (List.mem_cons_of_mem _ hx))
      simp only [msgPhase, hrow]
      exact hr

theorem attPhase_all_existing (s : GmailStore) (msgs : List MailRow) :
    ∀ (as : List AttachmentMeta) (ctr : Nat),
    (∀ a ∈ as, (lookup_attachment s a.attachment_id).isSome = true) →
    (attPhase s msgs as ctr).atts = [] ∧
    (attPhase s msgs as ctr).records = [] ∧
    (attPhase s msgs as ctr).rels = [] ∧
    (attPhase s msgs as ctr).ctr = ctr
  | [], _, _ => ⟨rfl, rfl, rfl, rfl⟩
  | a :: rest, ctr, h => by
    have ha := h a (List.mem_cons_self a _)
    rcases hrow : lookup_attachment s a.attachment_id with _ | row
    · rw [hrow] at ha; cases ha
    · have hr := attPhase_all_existing s msgs rest ctr
        (fun x hx => h x (List.mem_cons_of_mem _ hx))
      simp only [attPhase, hrow]
      exact hr

theorem permAttachments_nil_atts (s : GmailStore) (role : String)
    (emails : List String) :
    ∀ (aids : List String), permAttachments s [] role emails aids = []
  | [] => rfl
  | aid :: rest => by
    simp only [permAttachments, find_att_key, List.find?_nil, Option.map_none,
      List.nil_append]
    exact permAttachments_nil_atts s role emails rest

theorem permPhase_nil (s : GmailStore) :
    ∀ (perms : List PermissionMeta), permPhase s [] [] perms = ([], [])
  | [] => rfl
  | p :: rest => by
    have ih := permPhase_nil s rest
    simp [permPhase, find_msg_key, ih, permAttachments_nil_atts]

theorem foldl_all_existing (s : GmailStore) :
    ∀ (metas : List ThreadMeta) (acc : BatchAcc),
    (∀ meta ∈ metas, (∀ m ∈ meta.messages,
        (lookup_mail s m.id).isSome = true) ∧
      (∀ a ∈ meta.attachments,
        (lookup_attachment s a.attachment_id).isSome = true)) →
    acc.messages = [] → acc.attachments = [] → acc.peopleSaves = [] →
    (metas.foldl (processThreadInto s) acc).messages = [] ∧
    (metas.foldl (processThreadInto s) acc).attachments = [] ∧
    (metas.foldl (processThreadInto s) acc).peopleSaves = []
  | [], acc, _, h1, h2, h3 => ⟨h1, h2, h3⟩
  | meta :: rest, acc, h, h1, h2, h3 => by
    have hmeta := h meta (List.mem_cons_self meta _)
    have hrest := fun x hx => h x (List.mem_cons_of_mem _ hx)
    by_cases hg : (meta.thread_id == "") = true
    · have : processThreadInto s acc meta = acc := by
        rw [processThreadInto, if_pos hg]
      rw [List.foldl_cons, this]
      exact foldl_all_existing s rest acc hrest h1 h2 h3
    · rw [Bool.not_eq_true] at hg
      have hmsg : ∀ m ∈ sortMessages meta.messages,
          (lookup_mail s m.id).isSome = true :=
        fun m hm => hmeta.1 m (mem_sortMessages.mp hm)
      have hmp := msgPhase_all_existing s meta.thread_id
        (sortMessages meta.messages) 0 none acc.ctr hmsg
      have hstep : (processThreadInto s acc meta).messages = [] ∧
          (processThreadInto s acc meta).attachments = [] ∧
          (processThreadInto s acc meta).peopleSaves = [] := by
        simp only [processThreadInto, hg, Bool.false_eq_true, if_false]
        have hap := attPhase_all_existing s (acc.messages ++
          (msgPhase s meta.thread_id (sortMessages meta.messages) 0 none
            acc.ctr).mails) meta.attachments
          (msgPhase s meta.thread_id (sortMessages meta.messages) 0 none
            acc.ctr).ctr hmeta.2
        refine ⟨?_, ?_, ?_⟩
        · rw [hmp.1, h1]; rfl
        · rw [hap.1, h2]; rfl
        · rw [hap.1, hmp.1, h1, h2]
          simp only [List.append_nil, List.nil_append]
          rw [permPhase_nil, h3]
          rfl
      rw [List.foldl_cons]
      exact foldl_all_existing s rest _ hrest hstep.1 hstep.2.1 hstep.2.2

theorem emitEvents_length (s : GmailStore) :
    ∀ (metas : List ThreadMeta),
    (emitEvents s metas).length
      = (metas.map (fun meta => meta.messages.length)).sum
  | [] => rfl
  | meta :: rest => by
    simp [emitEvents, emitEvents_length s rest, Function.comp_def,
      List.length_map]

theorem emitEvents_shape (s : GmailStore) (metas : List ThreadMeta) :
    ∀ env ∈ emitEvents s metas,
    env.eventType = "create" ∧ env.recordVersion = 0 ∧
      ∃ meta ∈ metas, ∃ m ∈ meta.messages,
        env.recordId = get_key_by_external_message_id s m.id := by
  intro env henv
  simp only [emitEvents, List.mem_flatMap] at henv
  obtain ⟨meta, hmeta, hmem⟩ := henv
  simp only [List.mem_map] at hmem
  obtain ⟨m, hm, hEq⟩ := hmem
  subst hEq
  exact ⟨rfl, rfl, meta, hmeta, m, hm, rfl⟩

/-- C10: when every message and attachment of a mail batch already exists
in the store, `process_batch` succeeds without opening a transaction and
leaves the store unchanged, and the emission loop still produces one
envelope per message of the batch, every one with `eventType` `create`,
`recordVersion` 0 and a resolvable `recordId` -- re-observation re-emits
create envelopes rather than suppressing them or marking them updates. -/
theorem c10_reemit_existing (s : GmailStore) (ctr : Nat)
    (b : List ThreadMeta) (commitOk : Bool)
    (hmsg : ∀ meta ∈ b, ∀ m ∈ meta.messages,
      (lookup_mail s m.id).isSome = true)
    (hatt : ∀ meta ∈ b, ∀ a ∈ meta.attachments,
      (lookup_attachment s a.attachment_id).isSome = true) :
    (process_batch s ctr b commitOk).success = true ∧
    (process_batch s ctr b commitOk).txnOpened = false ∧
    (process_batch s ctr b commitOk).store = s ∧
    (emitEvents (process_batch s ctr b commitOk).store b).length
      = (b.map (fun meta => meta.messages.length)).sum ∧
    (∀ env ∈ emitEvents (process_batch s ctr b commitOk).store b,
      env.eventType = "create" ∧ env.recordVersion = 0 ∧
        env.recordId.isSome = true) := by
  have hfold := foldl_all_existing s b (initAcc ctr)
    (fun meta hm => ⟨hmsg meta hm, hatt meta hm⟩) rfl rfl rfl
  have hmsgs : (process_batch_core s ctr b).messages = [] := hfold.1
  have hatts : (process_batch_core s ctr b).attachments = [] := hfold.2.1
  have hsaves : (process_batch_core s ctr b).peopleSaves = [] := hfold.2.2
  have hempty : ((process_batch_core s ctr b).messages.isEmpty &&
      (process_batch_core s ctr b).attachments.isEmpty) = true := by
    rw [hmsgs, hatts]; rfl
  have hsucc : (process_batch s ctr b commitOk).success = true := by
    simp [process_batch, hempty]
  have hopen : (process_batch s ctr b commitOk).txnOpened = false := by
    simp [process_batch, hempty]
  have hstore : (process_batch s ctr b commitOk).store = s := by
    simp only [process_batch, hempty, if_true]
    rw [hsaves]
    rfl
  refine ⟨hsucc, hopen, hstore, ?_, ?_⟩
  · rw [hstore, emitEvents_length]
  · rw [hstore]
    intro env henv
    obtain ⟨h1, h2, meta, hmeta, m, hm, hkey⟩ :=
      emitEvents_shape s b env henv
    refine ⟨h1, h2, ?_⟩
    have hsome := hmsg meta hmeta m hm
    rcases hrow : lookup_mail s m.id with _ | row
    · rw [hrow] at hsome; cases hsome
    · rw [hkey]
      simp [get_key_by_external_message_id, hrow]

/-- Witness for C10: a batch whose single message M1 is already stored
succeeds without a transaction and leaves the store unchanged. -/
theorem c10_reemit_existing_witness :
    (∀ meta ∈ [(⟨"T1", [⟨"M1", some 1⟩], [], []⟩ : ThreadMeta)],
      ∀ m ∈ meta.messages,
      (lookup_mail ⟨[⟨5, "M1", "T1", true, some 1⟩], [], [], [], [], [], [],
        []⟩ m.id).isSome = true) ∧
    ((process_batch ⟨[⟨5, "M1", "T1", true, some 1⟩], [], [], [], [], [], [],
        []⟩ 0 [⟨"T1", [⟨"M1", some 1⟩], [], []⟩] true).success = true) ∧
    ((process_batch ⟨[⟨5, "M1", "T1", true, some 1⟩], [], [], [], [], [], [],
        []⟩ 0 [⟨"T1", [⟨"M1", some 1⟩], [], []⟩] true).txnOpened = false) :=
  ⟨by decide,
    (c10_reemit_existing
      ⟨[⟨5, "M1", "T1", true, some 1⟩], [], [], [], [], [], [], []⟩ 0
      [⟨"T1", [⟨"M1", some 1⟩], [], []⟩] true (by decide) (by decide)).1,
    (c10_reemit_existing
      ⟨[⟨5, "M1", "T1", true, some 1⟩], [], [], [], [], [], [], []⟩ 0
      [⟨"T1", [⟨"M1", some 1⟩], [], []⟩] true (by decide) (by decide)).2.1⟩

theorem msgPhase_mails_have_records (s : GmailStore) (tid : String) :
    ∀ (ms : List Message) (i : Nat) (prev : Option Nat) (ctr : Nat),
    ∀ m ∈ (msgPhase s tid ms i prev ctr).mails,
    ∃ r ∈ (msgPhase s tid ms i prev ctr).records, r.key = m.key
  | m0 :: rest, i, prev, ctr, m, hm => by
    simp only [msgPhase] at hm ⊢
    rcases h : lookup_mail s m0.id with _ | row
    · rw [h] at hm
      simp only at hm
      rcases List.mem_cons.mp hm with h1 | h2
      · subst h1
        exact ⟨_, List.mem_cons_self _ _, rfl⟩
      · obtain ⟨r, hr, hk⟩ := msgPhase_mails_have_records s tid rest (i + 1)
          (some ctr) (ctr + 1) m h2
        exact ⟨r, List.mem_cons_of_mem _ hr, hk⟩
    · rw [h] at hm
      exact msgPhase_mails_have_records s tid rest (i + 1) (some row.key)
        ctr m hm

theorem processThreadInto_mails_have_records (s : GmailStore)
    (meta : ThreadMeta) (acc : BatchAcc)
    (hacc : ∀ m ∈ acc.messages, ∃ r ∈ acc.records, r.key = m.key) :
    ∀ m ∈ (processThreadInto s acc meta).messages,
    ∃ r ∈ (processThreadInto s acc meta).records, r.key = m.key := by
  intro m hm
  by_cases hg : (meta.thread_id == "") = true
  · rw [processThreadInto, if_pos hg] at hm ⊢
    exact hacc m hm
  · rw [Bool.not_eq_true] at hg
    simp only [processThreadInto, hg, Bool.false_eq_true, if_false] at hm ⊢
    rcases List.mem_append.mp hm with h1 | h2
    · obtain ⟨r, hr, hk⟩ := hacc m h1
      exact ⟨r, List.mem_append_left _ (List.mem_append_left _ hr), hk⟩
    · obtain ⟨r, hr, hk⟩ := msgPhase_mails_have_records s meta.thread_id _
        0 none acc.ctr m h2
      exact ⟨r, List.mem_append_left _ (List.mem_append_right _ hr), hk⟩

theorem foldl_mails_have_records (s : GmailStore) :
    ∀ (metas : List ThreadMeta) (acc : BatchAcc),
    (∀ m ∈ acc.messages, ∃ r ∈ acc.records, r.key = m.key) →
    ∀ m ∈ (metas.foldl (processThreadInto s) acc).messages,
    ∃ r ∈ (metas.foldl (processThreadInto s) acc).records, r.key = m.key
  | [], acc, hacc, m, hm => hacc m hm
  | meta :: rest, acc, hacc, m, hm =>
    foldl_mails_have_records s rest (processThreadInto s acc meta)
      (processThreadInto_mails_have_records s meta acc hacc) m hm

theorem msgPhase_covers (s : GmailStore) (tid : String) :
    ∀ (ms : List Message) (i : Nat) (prev : Option Nat) (ctr : Nat),
    ∀ m ∈ ms, (lookup_mail s m.id).isSome = true ∨
      m.id ∈ (msgPhase s tid ms i prev ctr).mails.map
        MailRow.externalMessageId
  | m0 :: rest, i, prev, ctr, m, hm => by
    simp only [msgPhase]
    rcases h : lookup_mail s m0.id with _ | row
    · rcases List.mem_cons.mp hm with h1 | h2
      · subst h1
        right
        simp
      · rcases msgPhase_covers s tid rest (i + 1) (some ctr) (ctr + 1)
          m h2 with h3 | h3
        · exact Or.inl h3
        · right
          simp only [List.map_cons, List.mem_cons]
          exact Or.inr h3
    · rcases List.mem_cons.mp hm with h1 | h1
      · subst h1
        exact Or.inl (by rw [h]; rfl)
      · exact msgPhase_covers s tid rest (i + 1) (some row.key) ctr m h1

theorem processThreadInto_messages_extend (s : GmailStore)
    (meta : ThreadMeta) (acc : BatchAcc) :
    ∃ l, (processThreadInto s acc meta).messages = acc.messages ++ l := by
  by_cases hg : (meta.thread_id == "") = true
  · exact ⟨[], by rw [processThreadInto, if_pos hg, List.append_nil]⟩
  · rw [Bool.not_eq_true] at hg
    exact ⟨(msgPhase s meta.thread_id (sortMessages meta.messages) 0 none
        acc.ctr).mails,
      by simp only [processThreadInto, hg, Bool.false_eq_true, if_false]⟩

theorem foldl_messages_extend (s : GmailStore) :
    ∀ (metas : List ThreadMeta) (acc : BatchAcc),
    ∃ l, (metas.foldl (processThreadInto s) acc).messages
      = acc.messages ++ l
  | [], acc => ⟨[], (List.append_nil acc.messages).symm⟩
  | meta :: rest, acc => by
    obtain ⟨l1, h1⟩ := processThreadInto_messages_extend s meta acc
    obtain ⟨l2, h2⟩ := foldl_messages_extend s rest
      (processThreadInto s acc meta)
    exact ⟨l1 ++ l2, by rw [List.foldl_cons, h2, h1, List.append_assoc]⟩

theorem foldl_covers (s : GmailStore) :
    ∀ (metas : List ThreadMeta) (acc : BatchAcc),
    ∀ meta ∈ metas, meta.thread_id ≠ "" →
    ∀ m ∈ meta.messages, (lookup_mail s m.id).isSome = true ∨
      m.id ∈ (metas.foldl (processThreadInto s) acc).messages.map
        MailRow.externalMessageId
  | meta0 :: rest, acc, meta, hmeta, htid, m, hm => by
    rcases List.mem_cons.mp hmeta with heq | hmem
    · subst heq
      have hg : (meta.thread_id == "") = false := by
        simpa using htid
      have hc := msgPhase_covers s meta.thread_id
        (sortMessages meta.messages) 0 none acc.ctr m
        (mem_sortMessages.mpr hm)
      rcases hc with h1 | h1
      · exact Or.inl h1
      · right
        obtain ⟨l2, h2⟩ := foldl_messages_extend s rest
          (processThreadInto s acc meta)
        rw [List.foldl_cons, h2]
        have hstep : m.id ∈ (processThreadInto s acc meta).messages.map
            MailRow.externalMessageId := by
          simp only [processThreadInto, hg, Bool.false_eq_true, if_false,
            List.map_append, List.mem_append]
          exact Or.inr h1
        rw [List.map_append]
        exact List.mem_append_left _ hstep
    · rw [List.foldl_cons]
      exact foldl_covers s rest (processThreadInto s acc meta0) meta hmem
        htid m hm

theorem lookup_mail_append_left (s : GmailStore) (extra : List MailRow)
    (mid : String) (h : (lookup_mail s mid).isSome = true) :
    ((s.mails ++ extra).find? (fun m => m.externalMessageId == mid)).isSome
      = true := by
  rw [List.find?_append]
  rcases hl : s.mails.find? (fun m => m.externalMessageId == mid) with _ | r
  · rw [lookup_mail, hl] at h; cases h
  · rw [hl]; rfl

theorem lookup_mail_append_right (s : GmailStore) (extra : List MailRow)
    (mid : String) (h : mid ∈ extra.map MailRow.externalMessageId) :
    ((s.mails ++ extra).find? (fun m => m.externalMessageId == mid)).isSome
      = true := by
  rw [List.find?_append]
  obtain ⟨row, hrow, hid⟩ := List.mem_map.mp h
  have hfind : (extra.find? (fun m => m.externalMessageId == mid)).isSome
      = true :=
    List.find?_isSome.mpr ⟨row, hrow, by simp [hid]⟩
  rcases hl : s.mails.find? (fun m => m.externalMessageId == mid) with _ | r
  · rw [hl, Option.none_or]; exact hfind
  · rw [hl]; rfl

theorem mirrorInv_of_fields {s' s : GmailStore} (hm : s'.mails = s.mails)
    (hr : s'.records = s.records) (h : mirrorInv s) : mirrorInv s' := by
  intro m hmem
  rw [hm] at hmem
  obtain ⟨r, hrmem, hk⟩ := h m hmem
  exact ⟨r, by rw [hr]; exact hrmem, hk⟩

theorem process_batch_mirror (s : GmailStore) (ctr : Nat)
    (b : List ThreadMeta) (ok : Bool) (hinv : mirrorInv s) :
    mirrorInv (process_batch s ctr b ok).store := by
  have hfields := applyPeopleSaves_txn_fields s
    (process_batch_core s ctr b).peopleSaves
  cases hc : (process_batch_core s ctr b).messages.isEmpty &&
      (process_batch_core s ctr b).attachments.isEmpty with
  | true =>
    have : (process_batch s ctr b ok).store
        = applyPeopleSaves s (process_batch_core s ctr b).peopleSaves := by
      simp [process_batch, hc]
    rw [this]
    exact mirrorInv_of_fields hfields.1 hfields.2.2.1 hinv
  | false =>
    cases ok with
    | false =>
      have : (process_batch s ctr b false).store
          = applyPeopleSaves s (process_batch_core s ctr b).peopleSaves := by
        simp [process_batch, hc]
      rw [this]
      exact mirrorInv_of_fields hfields.1 hfields.2.2.1 hinv
    | true =>
      have hst : (process_batch s ctr b true).store
          = commitBatch
            (applyPeopleSaves s (process_batch_core s ctr b).peopleSaves)
            (process_batch_core s ctr b) := by
        simp [process_batch, hc]
      rw [hst]
      intro m hmem
      simp only [commitBatch, hfields.1, hfields.2.2.1] at hmem ⊢
      rcases List.mem_append.mp hmem with h1 | h2
      · obtain ⟨r, hr, hk⟩ := hinv m h1
        exact ⟨r, List.mem_append_left _ hr, hk⟩
      · obtain ⟨r, hr, hk⟩ := foldl_mails_have_records s b (initAcc ctr)
          (fun x hx => by cases hx) m h2
        exact ⟨r, List.mem_append_right _ hr, hk⟩

theorem process_batch_success_lookup (s : GmailStore) (ctr : Nat)
    (b : List ThreadMeta) (ok : Bool) (hwf : wfBatch b)
    (hsucc : (process_batch s ctr b ok).success = true) :
    ∀ meta ∈ b, ∀ m ∈ meta.messages,
    (lookup_mail (process_batch s ctr b ok).store m.id).isSome = true := by
  intro meta hmeta m hm
  have hfields := applyPeopleSaves_txn_fields s
    (process_batch_core s ctr b).peopleSaves
  have hcover := foldl_covers s b (initAcc ctr) meta hmeta
    (hwf meta hmeta) m hm
  cases hc : (process_batch_core s ctr b).messages.isEmpty &&
      (process_batch_core s ctr b).attachments.isEmpty with
  | true =>
    have hst : (process_batch s ctr b ok).store
        = applyPeopleSaves s (process_batch_core s ctr b).peopleSaves := by
      simp [process_batch, hc]
    have hmempty : (process_batch_core s ctr b).messages = [] := by
      have := (Bool.and_eq_true _ _).mp hc
      exact List.isEmpty_iff.mp this.1
    have hmempty2 : (List.foldl (processThreadInto s) (initAcc ctr)
        b).messages = [] := hmempty
    rcases hcover with h1 | h1
    · rw [hst, lookup_mail, hfields.1]
      exact h1
    · rw [hmempty2] at h1
      cases h1
  | false =>
    cases ok with
    | false =>
      exfalso
      have : (process_batch s ctr b false).success = false := by
        simp [process_batch, hc]
      rw [this] at hsucc
      cases hsucc
    | true =>
      have hst : (process_batch s ctr b true).store
          = commitBatch
            (applyPeopleSaves s (process_batch_core s ctr b).peopleSaves)
            (process_batch_core s ctr b) := by
        simp [process_batch, hc]
      rw [hst, lookup_mail]
      simp only [commitBatch, hfields.1]
      rcases hcover with h1 | h1
      · exact lookup_mail_append_left s _ m.id h1
      · exact lookup_mail_append_right s _ m.id h1

theorem runBatches_emit_records :
    ∀ (batches : List (List ThreadMeta)) (s : GmailStore) (ctr : Nat)
      (ok : Nat → Bool) (i : Nat),
    mirrorInv s → (∀ b ∈ batches, wfBatch b) →
    ∀ p ∈ (runBatches s ctr batches ok i).2.1, ∀ env,
    p.2 = TraceEv.emit env →
    ∃ k, env.recordId = some k ∧ ∃ r ∈ p.1.records, r.key = k
  | [], _, _, _, _, _, _, p, hp, _, _ => by cases hp
  | b :: rest, s, ctr, ok, i, hinv, hwf, p, hp, env, hev => by
    simp only [runBatches] at hp
    rcases List.mem_append.mp hp with h1 | h2
    · by_cases hs : (process_batch s ctr b (ok i)).success = true
      · simp only [hs, if_true] at h1
        rcases List.mem_append.mp h1 with hc | he
        · by_cases ht : (process_batch s ctr b (ok i)).txnOpened = true
          · simp only [ht, if_true] at hc
            rw [List.mem_singleton] at hc
            subst hc
            cases hev
          · rw [Bool.not_eq_true] at ht
            simp only [ht, Bool.false_eq_true, if_false] at hc
            cases hc
        · obtain ⟨env0, henv0, hpe⟩ := List.mem_map.mp he
          subst hpe
          simp only at hev
          injection hev with henv
          subst henv
          obtain ⟨_, _, meta, hmeta, m, hm, hkey⟩ :=
            emitEvents_shape (process_batch s ctr b (ok i)).store b env0 henv0
          have hlook := process_batch_success_lookup s ctr b (ok i)
            (hwf b (List.mem_cons_self b _)) hs meta hmeta m hm
          rcases hrow : lookup_mail (process_batch s ctr b (ok i)).store m.id
            with _ | row
          · rw [hrow] at hlook; cases hlook
          · refine ⟨row.key, ?_, ?_⟩
            · rw [hkey]
              simp [get_key_by_external_message_id, hrow]
            · have hminv := process_batch_mirror s ctr b (ok i) hinv
              exact hminv row (List.mem_of_find?_eq_some hrow)
      · rw [Bool.not_eq_true] at hs
        simp only [hs, Bool.false_eq_true, if_false] at h1
        cases h1
    · exact runBatches_emit_records rest (process_batch s ctr b (ok i)).store
        (process_batch s ctr b (ok i)).ctr ok (i + 1)
        (process_batch_mirror s ctr b (ok i) hinv)
        (fun x hx => hwf x (List.mem_cons_of_mem _ hx)) p h2 env hev

theorem filesPhase_files_have_records (s : DriveStore) :
    ∀ (metas : List DriveMeta) (ctr : Nat),
    ∀ f ∈ (filesPhase s metas ctr).files,
    ∃ r ∈ (filesPhase s metas ctr).records, r.key = f.key
  | m0 :: rest, ctr, f, hf => by
    simp only [filesPhase] at hf ⊢
    by_cases hid : (m0.id == "") = true
    · rw [if_pos hid] at hf ⊢
      exact filesPhase_files_have_records s rest ctr f hf
    · rw [if_neg hid] at hf ⊢
      rcases h : lookup_file_key s.files m0.id with _ | k

      · rw [h] at hf
        simp only at hf
        rcases List.mem_cons.mp hf with h1 | h2
        · subst h1
          exact ⟨_, List.mem_cons_self _ _, rfl⟩
        · obtain ⟨r, hr, hk⟩ := filesPhase_files_have_records s rest
            (ctr + 1) f h2
          exact ⟨r, List.mem_cons_of_mem _ hr, hk⟩
      · rw [h] at hf
        exact filesPhase_files_have_records s rest ctr f hf

theorem filesPhase_covers (s : DriveStore) :
    ∀ (metas : List DriveMeta) (ctr : Nat),
    ∀ m ∈ metas, m.id ≠ "" →
    ((lookup_file_key s.files m.id).isSome = true ∨
      m.id ∈ (filesPhase s metas ctr).files.map FileRow.externalFileId)
  | m0 :: rest, ctr, m, hm, hne => by
    simp only [filesPhase]
    rcases List.mem_cons.mp hm with heq | hmem
    · subst heq
      have hid : (m.id == "") = false := by simpa using hne
      rw [hid]
      simp only [Bool.false_eq_true, if_false]
      rcases h : lookup_file_key s.files m.id with _ | k
      · right
        simp
      · exact Or.inl (by simp [h])
    · by_cases hid : (m0.id == "") = true
      · rw [if_pos hid]
        exact filesPhase_covers s rest ctr m hmem hne
      · rw [if_neg hid]
        rcases h : lookup_file_key s.files m0.id with _ | k
        · rcases filesPhase_covers s rest (ctr + 1) m hmem hne with h1 | h1
          · exact Or.inl h1
          · right
            simp only [List.map_cons, List.mem_cons]
            exact Or.inr h1
        · exact filesPhase_covers s rest ctr m hmem hne

theorem drive_core_files_empty (s : DriveStore) (ctr : Nat)
    (metas : List DriveMeta)
    (h : (drive_process_batch_core s ctr metas).txnOpened = false) :
    (filesPhase s metas ctr).files = [] := by
  by_cases hc : ((filesPhase s metas ctr).files.isEmpty &&
      (filesPhase s metas ctr).records.isEmpty) = true
  · exact List.isEmpty_iff.mp ((Bool.and_eq_true _ _).mp hc).1
  · exfalso
    rw [Bool.not_eq_true] at hc
    rw [drive_process_batch_core] at h
    simp only [hc, Bool.false_eq_true, if_false] at h
    cases h

theorem drive_core_pairing (s : DriveStore) (ctr : Nat)
    (metas : List DriveMeta) :
    ∀ f ∈ (drive_process_batch_core s ctr metas).files,
    ∃ r ∈ (drive_process_batch_core s ctr metas).records, r.key = f.key := by
  intro f hf
  rw [drive_process_batch_core] at hf ⊢
  by_cases hc : ((filesPhase s metas ctr).files.isEmpty &&
      (filesPhase s metas ctr).records.isEmpty) = true
  · simp only [hc, if_true] at hf
    cases hf
  · simp only [hc, Bool.false_eq_true, if_false] at hf ⊢
    exact filesPhase_files_have_records s metas ctr f hf

theorem drive_core_files_eq (s : DriveStore) (ctr : Nat)
    (metas : List DriveMeta)
    (h : (drive_process_batch_core s ctr metas).txnOpened = true) :
    (drive_process_batch_core s ctr metas).files
      = (filesPhase s metas ctr).files := by
  by_cases hc : ((filesPhase s metas ctr).files.isEmpty &&
      (filesPhase s metas ctr).records.isEmpty) = true
  · exfalso
    rw [drive_process_batch_core] at h
    simp only [hc, if_true] at h
    cases h
  · rw [drive_process_batch_core]
    simp only [hc, Bool.false_eq_true, if_false]

theorem lookup_file_key_append_left (l1 l2 : List FileRow) (fid : String)
    (h : (lookup_file_key l1 fid).isSome = true) :
    (lookup_file_key (l1 ++ l2) fid).isSome = true := by
  rw [lookup_file_key] at h ⊢
  rw [List.find?_append]
  rcases hl : l1.find? (fun f => f.externalFileId == fid) with _ | r
  · rw [hl] at h; cases h
  · rw [hl]; rfl

theorem lookup_file_key_append_right (l1 l2 : List FileRow) (fid : String)
    (h : fid ∈ l2.map FileRow.externalFileId) :
    (lookup_file_key (l1 ++ l2) fid).isSome = true := by
  rw [lookup_file_key, List.find?_append]
  obtain ⟨row, hrow, hid⟩ := List.mem_map.mp h
  have hfind : (l2.find? (fun f => f.externalFileId == fid)).isSome = true :=
    List.find?_isSome.mpr ⟨row, hrow, by simp [hid]⟩
  rcases hl : l1.find? (fun f => f.externalFileId == fid) with _ | r
  · rw [hl, Option.none_or]
    simpa [Option.isSome_map] using hfind
  · rw [hl]; rfl

theorem drive_process_batch_mirror (s : DriveStore) (ctr : Nat)
    (metas : List DriveMeta) (ok : Bool) (hinv : driveMirrorInv s) :
    driveMirrorInv (drive_process_batch s ctr metas ok).store := by
  by_cases ht : (drive_process_batch_core s ctr metas).txnOpened = true
  · cases ok with
    | false =>
      have : (drive_process_batch s ctr metas false).store = s := by
        simp [drive_process_batch, ht]
      rw [this]; exact hinv
    | true =>
      have hst : (drive_process_batch s ctr metas true).store
          = { files := s.files ++ (drive_process_batch_core s ctr metas).files,
              records := s.records
                ++ (drive_process_batch_core s ctr metas).records } := by
        simp [drive_process_batch, ht]
      rw [hst]
      intro f hf
      simp only at hf ⊢
      rcases List.mem_append.mp hf with h1 | h2
      · obtain ⟨r, hr, hk⟩ := hinv f h1
        exact ⟨r, List.mem_append_left _ hr, hk⟩
      · obtain ⟨r, hr, hk⟩ := drive_core_pairing s ctr metas f h2
        exact ⟨r, List.mem_append_right _ hr, hk⟩
  · rw [Bool.not_eq_true] at ht
    have : (drive_process_batch s ctr metas ok).store = s := by
      simp [drive_process_batch, ht]
    rw [this]; exact hinv

theorem drive_process_batch_success_lookup (s : DriveStore) (ctr : Nat)
    (metas : List DriveMeta) (ok : Bool) (hwf : wfDriveBatch metas)
    (hsucc : (drive_process_batch s ctr metas ok).success = true) :
    ∀ m ∈ metas,
    (lookup_file_key (drive_process_batch s ctr metas ok).store.files
      m.id).isSome = true := by
  intro m hm
  have hcover := filesPhase_covers s metas ctr m hm (hwf m hm)
  by_cases ht : (drive_process_batch_core s ctr metas).txnOpened = true
  · cases ok with
    | false =>
      exfalso
      have : (drive_process_batch s ctr metas false).success = false := by
        simp [drive_process_batch, ht]
      rw [this] at hsucc
      cases hsucc
    | true =>
      have hst : (drive_process_batch s ctr metas true).store
          = { files := s.files ++ (drive_process_batch_core s ctr metas).files,
              records := s.records
                ++ (drive_process_batch_core s ctr metas).records } := by
        simp [drive_process_batch, ht]
      rw [hst]
      simp only
      rcases hcover with h1 | h1
      · exact lookup_file_key_append_left _ _ m.id h1
      · rw [drive_core_files_eq s ctr metas ht]
        exact lookup_file_key_append_right _ _ m.id h1
  · rw [Bool.not_eq_true] at ht
    have hst : (drive_process_batch s ctr metas ok).store = s := by
      simp [drive_process_batch, ht]
    rw [hst]
    rcases hcover with h1 | h1
    · exact h1
    · rw [drive_core_files_empty s ctr metas ht] at h1
      cases h1

theorem driveEmitEvents_shape (s : DriveStore) (metas : List DriveMeta) :
    ∀ env ∈ driveEmitEvents s metas,
    env.eventType = "create" ∧ env.recordVersion = 0 ∧
      ∃ m ∈ metas, env.recordId = lookup_file_key s.files m.id := by
  intro env henv
  simp only [driveEmitEvents, List.mem_map] at henv
  obtain ⟨m, hm, hEq⟩ := henv
  subst hEq
  exact ⟨rfl, rfl, m, hm, rfl⟩

theorem driveRunBatches_emit_records :
    ∀ (batches : List (List DriveMeta)) (s : DriveStore) (ctr : Nat)
      (ok : Nat → Bool) (i : Nat),
    driveMirrorInv s → (∀ b ∈ batches, wfDriveBatch b) →
    ∀ p ∈ (driveRunBatches s ctr batches ok i).2.1, ∀ env,
    p.2 = TraceEv.emit env →
    ∃ k, env.recordId = some k ∧ ∃ r ∈ p.1.records, r.key = k
  | [], _, _, _, _, _, _, p, hp, _, _ => by cases hp
  | b :: rest, s, ctr, ok, i, hinv, hwf, p, hp, env, hev => by
    simp only [driveRunBatches] at hp
    rcases List.mem_append.mp hp with h1 | h2
    · by_cases hs : (drive_process_batch s ctr b (ok i)).success = true
      · simp only [hs, if_true] at h1
        rcases List.mem_append.mp h1 with hc | he
        · by_cases ht : (drive_process_batch s ctr b (ok i)).txnOpened = true
          · simp only [ht, if_true] at hc
            rw [List.mem_singleton] at hc
            subst hc
            cases hev
          · rw [Bool.not_eq_true] at ht
            simp only [ht, Bool.false_eq_true, if_false] at hc
            cases hc
        · obtain ⟨env0, henv0, hpe⟩ := List.mem_map.mp he
          subst hpe
          simp only at hev
          injection hev with henv
          subst henv
          obtain ⟨_, _, m, hm, hkey⟩ := driveEmitEvents_shape
            (drive_process_batch s ctr b (ok i)).store b env0 henv0
          have hlook := drive_process_batch_success_lookup s ctr b (ok i)
            (hwf b (List.mem_cons_self b _)) hs m hm
          rcases hrow : lookup_file_key
              (drive_process_batch s ctr b (ok i)).store.files m.id
            with _ | k
          · rw [hrow] at hlook; cases hlook
          · refine ⟨k, by rw [hkey, hrow], ?_⟩
            rw [lookup_file_key] at hrow
            obtain ⟨row, hfind, hkeq⟩ := Option.map_eq_some'.mp hrow
            have hminv := drive_process_batch_mirror s ctr b (ok i) hinv
            obtain ⟨r, hr, hrk⟩ := hminv row (List.mem_of_find?_eq_some hfind)
            exact ⟨r, hr, by rw [hrk, hkeq]⟩
      · rw [Bool.not_eq_true] at hs
        simp only [hs, Bool.false_eq_true, if_false] at h1
        cases h1
    · exact driveRunBatches_emit_records rest
        (drive_process_batch s ctr b (ok i)).store
        (drive_process_batch s ctr b (ok i)).ctr ok (i + 1)
        (drive_process_batch_mirror s ctr b (ok i) hinv)
        (fun x hx => hwf x (List.mem_cons_of_mem _ hx)) p h2 env hev

/-- C6: in both initial-sync loops (gmail and drive), batch envelopes are
emitted only after the batch's `process_batch` has returned success (a
failed batch contributes no envelope -- the trace of a failed batch is
empty by the loop's `continue`), and at emission time the store already
holds a committed records vertex for every envelope's `recordId`: every
emit step of the run trace carries a resolvable record key and a records
row with that key in the store paired with the step. -/
theorem c6_emit_after_commit :
    (∀ (batches : List (List ThreadMeta)) (s : GmailStore) (ctr : Nat)
        (ok : Nat → Bool) (i : Nat),
      mirrorInv s → (∀ b ∈ batches, wfBatch b) →
      ∀ p ∈ (runBatches s ctr batches ok i).2.1, ∀ env,
      p.2 = TraceEv.emit env →
      ∃ k, env.recordId = some k ∧ ∃ r ∈ p.1.records, r.key = k) ∧
    (∀ (batches : List (List DriveMeta)) (s : DriveStore) (ctr : Nat)
        (ok : Nat → Bool) (i : Nat),
      driveMirrorInv s → (∀ b ∈ batches, wfDriveBatch b) →
      ∀ p ∈ (driveRunBatches s ctr batches ok i).2.1, ∀ env,
      p.2 = TraceEv.emit env →
      ∃ k, env.recordId = some k ∧ ∃ r ∈ p.1.records, r.key = k) :=
  ⟨runBatches_emit_records, driveRunBatches_emit_records⟩

/-- Witness for C6: a fresh two-message batch over the empty store
satisfies the hypotheses, and every emitted envelope of its run resolves
to a committed record. -/
theorem c6_emit_after_commit_witness :
    mirrorInv ⟨[], [], [], [], [], [], [], []⟩ ∧
    (∀ b ∈ [[(⟨"T1", [⟨"M1", some 10⟩, ⟨"M2", some 20⟩], [], []⟩ :
        ThreadMeta)]], wfBatch b) ∧
    (∀ p ∈ (runBatches ⟨[], [], [], [], [], [], [], []⟩ 0
        [[⟨"T1", [⟨"M1", some 10⟩, ⟨"M2", some 20⟩], [], []⟩]]
        (fun _ => true) 0).2.1, ∀ env,
      p.2 = TraceEv.emit env →
      ∃ k, env.recordId = some k ∧ ∃ r ∈ p.1.records, r.key = k) :=
  ⟨by simp [mirrorInv], by simp only [wfBatch]; decide,
    c6_emit_after_commit.1
      [[⟨"T1", [⟨"M1", some 10⟩, ⟨"M2", some 20⟩], [], []⟩]]
      ⟨[], [], [], [], [], [], [], []⟩ 0 (fun _ => true) 0
      (by simp [mirrorInv]) (by simp only [wfBatch]; decide)⟩

end SyncCore
